import Mathlib

/-!
# Book tracker: HTTP handlers over a SQL repository

A shallow embedding of the Go packages `models`, `repository` and `handlers`.

* A Go `int` is an `Int`, a Go `error` is an `Option String` holding the text
  of `Error()` (`none` is the nil error), a Go slice is an `Option (List _)`
  whose `none` is the nil slice.
* The PostgreSQL table `books` is a list of rows together with the last value
  handed out by the sequence behind the `SERIAL` column.  Every statement runs
  through a handle that says whether the call sending it returns an error and
  whether the iteration over its result rows ends with one.
* A handler is a function from the state reachable through the repository and
  a response writer to the new state and the written response.
-/

/-! ## Go runtime and standard library -/

/-- A Go error value: `none` is nil, `some e` an error whose `Error()` is `e`. -/
abbrev GoError := Option String

/-- A Go slice value: `none` is the nil slice. -/
abbrev Slice (α : Type) := Option (List α)

/-- The builtin `append(s, x)`: the result is never nil. -/
def goAppend {α : Type} (s : Slice α) (x : α) : Slice α :=
  some (s.getD [] ++ [x])

/-- A JSON document. -/
inductive JSON where
  | null : JSON
  | bool (b : Bool) : JSON
  | num (n : Int) : JSON
  | str (s : String) : JSON
  | arr (elems : List JSON) : JSON
  | obj (fields : List (String × JSON)) : JSON

namespace strconv

/-- Value of a string of decimal digits, most significant first. -/
def digitsValue (ds : List Char) : Nat :=
  ds.foldl (fun n ch => n * 10 + (ch.toNat - 48)) 0

/-- The function `strconv.Atoi` on a 64-bit platform: an optional sign, then
at least one decimal digit and nothing else, the value within the range of
`int`; `none` stands for a returned error. -/
def Atoi (s : String) : Option Int :=
  let s0 := s.toList
  let neg := s0.head? = some '-'
  let ds := if s0.head? = some '-' ∨ s0.head? = some '+' then s0.tail else s0
  if ds = [] then none
  else if ds.all Char.isDigit = false then none
  else
    let n : Int := if neg then -(digitsValue ds : Int) else (digitsValue ds : Int)
    if n < -9223372036854775808 ∨ 9223372036854775807 < n then none else some n

end strconv

namespace http

def StatusOK : Nat := 200
def StatusCreated : Nat := 201
def StatusNoContent : Nat := 204
def StatusBadRequest : Nat := 400
def StatusInternalServerError : Nat := 500

/-- One write to the response body: plain text, or the JSON text of a value
followed by a newline (what `json.Encoder.Encode` emits). -/
inductive Payload where
  | text (s : String) : Payload
  | json (v : JSON) : Payload

/-- An `http.ResponseWriter`: the status code once the header is written, and
the body written so far. -/
structure ResponseWriter where
  code : Option Nat
  body : List Payload

/-- A response writer on which nothing has been written (`httptest.NewRecorder`). -/
def NewRecorder : ResponseWriter := { code := none, body := [] }

/-- The method `WriteHeader`: only the first call takes effect. -/
def ResponseWriter.WriteHeader (w : ResponseWriter) (statusCode : Nat) : ResponseWriter :=
  match w.code with
  | some _ => w
  | none => { w with code := some statusCode }

/-- The method `Write`: writes the header with `StatusOK` if none was written. -/
def ResponseWriter.Write (w : ResponseWriter) (p : Payload) : ResponseWriter :=
  let w1 := w.WriteHeader StatusOK
  { w1 with body := w1.body ++ [p] }

/-- Status code of the finished response; `StatusOK` when the handler wrote none. -/
def ResponseWriter.Code (w : ResponseWriter) : Nat := w.code.getD StatusOK

/-- The function `http.Error`: writes the header, then the message and a newline. -/
def Error (w : ResponseWriter) (msg : String) (code : Nat) : ResponseWriter :=
  (w.WriteHeader code).Write (Payload.text (msg ++ "\n"))

end http

/-! ## Package models -/

namespace models

/-- The struct `models.Book`. -/
structure Book where
  ID : Int
  Title : String
  Author : String
  Progress : Int
  Notes : String
  Finished : Bool
  Rating : Int
deriving DecidableEq, Repr

end models

open models

namespace json

/-- What `json.Marshal` produces for a `models.Book`, by its field tags. -/
def marshalBook (b : Book) : JSON :=
  JSON.obj [("id", JSON.num b.ID), ("title", JSON.str b.Title), ("author", JSON.str b.Author),
    ("progress", JSON.num b.Progress), ("notes", JSON.str b.Notes),
    ("finished", JSON.bool b.Finished), ("rating", JSON.num b.Rating)]

/-- What `json.Marshal` produces for a `[]models.Book`: `null` for the nil slice. -/
def marshalBooks (bs : Slice Book) : JSON :=
  match bs with
  | none => JSON.null
  | some l => JSON.arr (l.map marshalBook)

/-- The call `json.NewEncoder(w).Encode(v)` for an already marshalled value. -/
def Encode (w : http.ResponseWriter) (v : JSON) : http.ResponseWriter :=
  w.Write (http.Payload.json v)

end json

/-! ## The database behind the handle -/

/-- Contents of the PostgreSQL database: the rows of table `books` and the last
value handed out by the sequence of its `SERIAL` column (0 when none was). -/
structure Database where
  books : List Book
  lastID : Nat
deriving DecidableEq, Repr

namespace sqlx

/-- A database handle at the time of one statement.  `fault` is the error that
the call sending the statement returns (lost connection, cancelled context, a
value the server rejects), `none` when the call returns no error.  `rowsErr` is
the error that ends the iteration over the result rows before the first row is
read, so that `rows.Next()` is false at once and `rows.Err()` holds the error
(a context cancelled or a connection lost after the call returned); it plays no
part in a statement that returns no rows.  `applied` says whether the server
carried the statement out in that case. -/
structure DB where
  fault : GoError
  rowsErr : GoError
  applied : Bool
deriving DecidableEq, Repr

/-- Statement `INSERT INTO books (title, author, progress, notes, finished, rating)
VALUES (...) RETURNING id`, as `NamedQueryContext` runs it: the error of the
call, or the database afterwards and the result rows that the iteration will
deliver.  The one result row holds the assigned id; no row is delivered when
the iteration ends with an error. -/
def insertReturningID (db : DB) (d : Database) (b : Book) : Except String (Database × List Int) :=
  match db.fault with
  | some e => Except.error e
  | none =>
    let id : Int := ((d.lastID + 1 : Nat) : Int)
    let d1 : Database := { books := d.books ++ [{ b with ID := id }], lastID := d.lastID + 1 }
    match db.rowsErr with
    | none => Except.ok (d1, [id])
    | some _ => Except.ok (if db.applied then d1 else d, [])

/-- Statement `SELECT id, title, author, progress, notes, finished, rating FROM books`,
as `SelectContext` runs it: the error of the call or the error that ended the
iteration, which `scanAll` returns from `rows.Err()`, or else the rows. -/
def selectAll (db : DB) (d : Database) : Except String (List Book) :=
  match db.fault with
  | some e => Except.error e
  | none =>
    match db.rowsErr with
    | some e => Except.error e
    | none => Except.ok d.books

/-- Statement `UPDATE books SET title = .., author = .., progress = .., notes = ..,
finished = .., rating = .. WHERE id = :id`. -/
def updateByID (db : DB) (d : Database) (b : Book) : Except String Database :=
  match db.fault with
  | some e => Except.error e
  | none =>
    Except.ok { d with books := d.books.map fun r => if r.ID = b.ID then { b with ID := r.ID } else r }

/-- Statement `DELETE FROM books WHERE id = $1`. -/
def deleteByID (db : DB) (d : Database) (id : Int) : Except String Database :=
  match db.fault with
  | some e => Except.error e
  | none => Except.ok { d with books := d.books.filter fun r => decide (r.ID ≠ id) }

/-- The row loop of `scanAll`: every row is appended to the destination slice,
which therefore stays as it was when there is no row. -/
def scanAll (dest : Slice Book) (rows : List Book) : Slice Book :=
  rows.foldl goAppend dest

end sqlx

/-! ## Package repository -/

namespace repository

/-- The interface `BookRepositoryInterface` over the state `σ` an implementation
acts on.  A method returns the new state, the value left behind its pointer
argument when it has one, and the error. -/
structure BookRepositoryInterface (σ : Type) where
  CreateBook : σ → Book → σ × Book × GoError
  GetBooks : σ → σ × Slice Book × GoError
  UpdateBook : σ → Book → σ × Book × GoError
  DeleteBook : σ → Int → σ × GoError

/-- The struct `BookRepository`. -/
structure BookRepository where
  db : sqlx.DB

def BookRepository.CreateBook (r : BookRepository) (d : Database) (book : Book) :
    Database × Book × GoError :=
  match sqlx.insertReturningID r.db d book with
  | Except.error e => (d, book, some e)
  | Except.ok (d1, rows) =>
    match rows with
    | id :: _ => (d1, { book with ID := id }, none)
    | [] => (d1, book, none)

def BookRepository.GetBooks (r : BookRepository) (d : Database) :
    Database × Slice Book × GoError :=
  match sqlx.selectAll r.db d with
  | Except.error e => (d, none, some e)
  | Except.ok rows => (d, sqlx.scanAll none rows, none)

def BookRepository.UpdateBook (r : BookRepository) (d : Database) (book : Book) :
    Database × Book × GoError :=
  match sqlx.updateByID r.db d book with
  | Except.error e => (d, book, some e)
  | Except.ok d1 => (d1, book, none)

def BookRepository.DeleteBook (r : BookRepository) (d : Database) (id : Int) :
    Database × GoError :=
  match sqlx.deleteByID r.db d id with
  | Except.error e => (d, some e)
  | Except.ok d1 => (d1, none)

/-- The constructor `NewBookRepository`, as a value of the interface. -/
def NewBookRepository (db : sqlx.DB) : BookRepositoryInterface Database :=
  let r : BookRepository := { db := db }
  { CreateBook := r.CreateBook, GetBooks := r.GetBooks,
    UpdateBook := r.UpdateBook, DeleteBook := r.DeleteBook }

end repository

open repository

/-! ## Package handlers -/

namespace handlers

/-- What a handler reads from `*http.Request`: the route variable `id`
(`mux.Vars(r)["id"]`, empty when the route has none) and what decoding the body
into a zero `models.Book` gives (`none` when `Decode` returns an error). -/
structure Request where
  id : String
  body : Option Book
deriving DecidableEq, Repr

def CreateBook {σ : Type} (repo : BookRepositoryInterface σ) (s : σ) (w : http.ResponseWriter)
    (r : Request) : σ × http.ResponseWriter :=
  match r.body with
  | none => (s, http.Error w "Invalid request body" http.StatusBadRequest)
  | some book =>
    if book.Title = "" ∨ book.Author = "" ∨ book.Progress < 0 then
      (s, http.Error w "Title, Author, and non-negative Progress are required" http.StatusBadRequest)
    else
      match repo.CreateBook s book with
      | (s1, _, some e) => (s1, http.Error w e http.StatusInternalServerError)
      | (s1, book1, none) => (s1, json.Encode (w.WriteHeader http.StatusCreated) (json.marshalBook book1))

def GetBooks {σ : Type} (repo : BookRepositoryInterface σ) (s : σ) (w : http.ResponseWriter)
    (_r : Request) : σ × http.ResponseWriter :=
  match repo.GetBooks s with
  | (s1, _, some e) => (s1, http.Error w e http.StatusInternalServerError)
  | (s1, books, none) => (s1, json.Encode w (json.marshalBooks books))

def UpdateBook {σ : Type} (repo : BookRepositoryInterface σ) (s : σ) (w : http.ResponseWriter)
    (r : Request) : σ × http.ResponseWriter :=
  match strconv.Atoi r.id with
  | none => (s, http.Error w "Invalid ID" http.StatusBadRequest)
  | some id =>
    match r.body with
    | none => (s, http.Error w "Invalid request body" http.StatusBadRequest)
    | some book =>
      if book.Title = "" ∨ book.Author = "" ∨ book.Progress < 0 then
        (s, http.Error w "Title, Author, and non-negative Progress are required" http.StatusBadRequest)
      else
        match repo.UpdateBook s { book with ID := id } with
        | (s1, _, some e) => (s1, http.Error w e http.StatusInternalServerError)
        | (s1, book1, none) => (s1, json.Encode w (json.marshalBook book1))

def DeleteBook {σ : Type} (repo : BookRepositoryInterface σ) (s : σ) (w : http.ResponseWriter)
    (r : Request) : σ × http.ResponseWriter :=
  match strconv.Atoi r.id with
  | none => (s, http.Error w "Invalid ID" http.StatusBadRequest)
  | some id =>
    match repo.DeleteBook s id with
    | (s1, some e) => (s1, http.Error w e http.StatusInternalServerError)
    | (s1, none) => (s1, w.WriteHeader http.StatusNoContent)

end handlers

/-! ## Routing and serving -/

namespace handlers

/-- The four routes that `RegisterBookHandlers` registers: `POST /books`,
`GET /books`, `PUT /books/{id}` and `DELETE /books/{id}`. -/
inductive Route where
  | postBooks : Route
  | getBooks : Route
  | putBook : Route
  | deleteBook : Route
deriving DecidableEq, Repr

/-- The function `RegisterBookHandlers`: one repository over the handle, and the
handler of each route. -/
def RegisterBookHandlers (db : sqlx.DB) (route : Route) :
    Database → http.ResponseWriter → Request → Database × http.ResponseWriter :=
  let repo := NewBookRepository db
  match route with
  | Route.postBooks => CreateBook repo
  | Route.getBooks => GetBooks repo
  | Route.putBook => UpdateBook repo
  | Route.deleteBook => DeleteBook repo

/-- One request as the server receives it: the route it matches, what the
handler reads from it, and the condition of the handle while it is served. -/
structure Exchange where
  db : sqlx.DB
  route : Route
  request : Request
deriving DecidableEq, Repr

/-- The database after a sequence of requests served one after another, each on
a response writer of its own. -/
def serve (d : Database) (reqs : List Exchange) : Database :=
  reqs.foldl (fun d1 x => (RegisterBookHandlers x.db x.route d1 http.NewRecorder x.request).1) d

end handlers

/-! ## Test doubles and sample values -/

/-- A call received by the recording repository. -/
inductive Call where
  | create (book : Book) : Call
  | get : Call
  | update (book : Book) : Call
  | delete (id : Int) : Call
deriving DecidableEq, Repr

/-- A repository in the manner of `mockBookRepository`: every method returns
the given error and the state is the list of calls received so far. -/
def recordingRepository (err : GoError) : BookRepositoryInterface (List Call) :=
  { CreateBook := fun log book => (log ++ [Call.create book], book, err),
    GetBooks := fun log => (log ++ [Call.get], none, err),
    UpdateBook := fun log book => (log ++ [Call.update book], book, err),
    DeleteBook := fun log id => (log ++ [Call.delete id], err) }

/-- The book decoded from the body `"title":"Dune","author":"Herbert","progress":0`. -/
def duneBook : Book :=
  { ID := 0, Title := "Dune", Author := "Herbert", Progress := 0, Notes := "",
    Finished := false, Rating := 0 }

/-- A second sample book, with every field set. -/
def emmaBook : Book :=
  { ID := 7, Title := "Emma", Author := "Austen", Progress := 40, Notes := "reread",
    Finished := true, Rating := 5 }

/-- The database right after the table was created. -/
def freshDatabase : Database := { books := [], lastID := 0 }

/-- A handle on which the statement is executed and its rows are delivered. -/
def healthy : sqlx.DB := { fault := none, rowsErr := none, applied := true }

/-- A handle on which the driver reports the given error. -/
def failing (e : String) : sqlx.DB := { fault := some e, rowsErr := none, applied := false }

/-- A handle on which the call sending the statement returns no error but the
iteration over its result rows ends at once with the given error. -/
def rowsLost (e : String) (applied : Bool) : sqlx.DB :=
  { fault := none, rowsErr := some e, applied := applied }

/-! ## Package db -/

namespace time

/-- The constant `time.Second`, a duration in nanoseconds. -/
def Second : Nat := 1000000000

end time

namespace sqlx

/-- Statement `CREATE TABLE IF NOT EXISTS books (id SERIAL PRIMARY KEY, ...)` on a
server that has the table (`some`) or not (`none`): an absent table is created
empty with a sequence that has handed out nothing, a present one is left alone. -/
def createTableIfNotExists (db : DB) (server : Option Database) :
    Except String (Option Database) :=
  match db.fault with
  | some e => Except.error e
  | none => Except.ok (some (server.getD { books := [], lastID := 0 }))

end sqlx

namespace db

/-- What `NewDB` does to the world, in the order it does it. -/
inductive Event where
  | connect : Event
  | printf (text : String) : Event
  | sleep (nanoseconds : Nat) : Event
  | exec : Event
  | close : Event
deriving DecidableEq, Repr

/-- The world `NewDB` runs in: what the call number `i` of `sqlx.Connect`, counted
from 0, returns. -/
structure World where
  connect : Nat → Except String sqlx.DB

def maxRetries : Nat := 10

def retryInterval : Nat := 2 * time.Second

/-- The error text of the call number `i` of `sqlx.Connect`, empty when it succeeds. -/
def connectError (w : World) (i : Nat) : String :=
  match w.connect i with
  | Except.error e => e
  | Except.ok _ => ""

/-- The rest of an iteration of the retry loop after a failed `sqlx.Connect`:
the message on standard output and the sleep. -/
def afterFailure (i : Nat) (e : String) : List Event :=
  [Event.printf ("Failed to connect to database (attempt " ++ toString (i + 1) ++ "/"
      ++ toString maxRetries ++ "): " ++ e ++ "\n"),
    Event.sleep retryInterval]

/-- The variables `db` and `err` of `NewDB`, and the events so far. -/
structure LoopState where
  db : Option sqlx.DB
  err : GoError
  trace : List Event
deriving DecidableEq, Repr

/-- The loop `for i := 0; i < maxRetries; i++` from the iteration `i` on, with
`remaining = maxRetries - i` iterations left. -/
def retryLoop (w : World) : Nat → Nat → LoopState → LoopState
  | 0, _, st => st
  | remaining + 1, i, st =>
    match w.connect i with
    | Except.ok handle =>
      { db := some handle, err := none, trace := st.trace ++ [Event.connect] }
    | Except.error e =>
      retryLoop w remaining (i + 1)
        { db := none, err := some e, trace := st.trace ++ Event.connect :: afterFailure i e }

/-- How a call of `NewDB` ends. -/
inductive Outcome where
  | handle (db : sqlx.DB) : Outcome
  | error (text : String) : Outcome
  | nilDereference : Outcome
deriving DecidableEq, Repr

/-- A finished call of `NewDB`: how it ended, the server afterwards, the events. -/
structure Run where
  outcome : Outcome
  server : Option Database
  trace : List Event
deriving DecidableEq, Repr

def NewDB (w : World) (server : Option Database) : Run :=
  let st := retryLoop w maxRetries 0 { db := none, err := none, trace := [] }
  match st.err with
  | some e =>
    { outcome := Outcome.error ("failed to connect to database after " ++ toString maxRetries
        ++ " attempts: " ++ e),
      server := server, trace := st.trace }
  | none =>
    match st.db with
    | none => { outcome := Outcome.nilDereference, server := server, trace := st.trace }
    | some handle =>
      match sqlx.createTableIfNotExists handle server with
      | Except.error e =>
        { outcome := Outcome.error ("failed to create books table: " ++ e),
          server := server, trace := st.trace ++ [Event.exec, Event.close] }
      | Except.ok server1 =>
        { outcome := Outcome.handle handle, server := server1,
          trace := st.trace ++ [Event.exec] }

/-- A world in which the first `k` calls of `sqlx.Connect` fail with the text
`e` and every later one returns the handle `h`. -/
def connectsAfter (k : Nat) (e : String) (h : sqlx.DB) : World :=
  { connect := fun i => if i < k then Except.error e else Except.ok h }

end db

/-! ## The invariant of the data model -/

/-- The invariant of the stored books, with the bound that makes it inductive:
identifiers are pairwise distinct and none exceeds the last value of the
sequence; titles and authors are non-empty and progress is non-negative. -/
def Database.consistent (d : Database) : Prop :=
  d.books.Pairwise (fun a b => a.ID ≠ b.ID) ∧
  (∀ b ∈ d.books, b.ID ≤ (d.lastID : Int)) ∧
  (∀ b ∈ d.books, b.Title ≠ "" ∧ b.Author ≠ "" ∧ 0 ≤ b.Progress)

/-! ## The repository on a healthy and on a failing handle -/

theorem fault_cases (db : sqlx.DB) : db.fault = none ∨ ∃ e, db.fault = some e := by
  cases h : db.fault with
  | none => exact Or.inl rfl
  | some e => exact Or.inr ⟨e, rfl⟩

theorem rowsErr_cases (db : sqlx.DB) : db.rowsErr = none ∨ ∃ e, db.rowsErr = some e := by
  cases h : db.rowsErr with
  | none => exact Or.inl rfl
  | some e => exact Or.inr ⟨e, rfl⟩

theorem repo_create_ok (db : sqlx.DB) (d : Database) (b : Book)
    (h : db.fault = none ∧ db.rowsErr = none) :
    (NewBookRepository db).CreateBook d b =
      ({ books := d.books ++ [{ b with ID := ((d.lastID + 1 : Nat) : Int) }], lastID := d.lastID + 1 },
        { b with ID := ((d.lastID + 1 : Nat) : Int) }, none) := by
  simp [NewBookRepository, BookRepository.CreateBook, sqlx.insertReturningID, h.1, h.2]

/-- The create of the repository when the result row is not delivered: no
error, the book as it was passed, and the row stored or not. -/
theorem repo_create_rows_lost (db : sqlx.DB) (d : Database) (b : Book) (e : String)
    (h : db.fault = none) (hr : db.rowsErr = some e) :
    (NewBookRepository db).CreateBook d b =
      (if db.applied then
          { books := d.books ++ [{ b with ID := ((d.lastID + 1 : Nat) : Int) }],
            lastID := d.lastID + 1 }
        else d, b, none) := by
  simp [NewBookRepository, BookRepository.CreateBook, sqlx.insertReturningID, h, hr]

theorem repo_create_fault (db : sqlx.DB) (d : Database) (b : Book) (e : String)
    (h : db.fault = some e) : (NewBookRepository db).CreateBook d b = (d, b, some e) := by
  simp [NewBookRepository, BookRepository.CreateBook, sqlx.insertReturningID, h]

theorem repo_create_succeeds (db : sqlx.DB) (d : Database) (b : Book)
    (h : ((NewBookRepository db).CreateBook d b).2.2 = none) : db.fault = none := by
  rcases fault_cases db with h0 | ⟨e, he⟩
  · exact h0
  · rw [repo_create_fault db d b e he] at h
    simp at h

theorem repo_update_ok (db : sqlx.DB) (d : Database) (b : Book) (h : db.fault = none) :
    (NewBookRepository db).UpdateBook d b =
      ({ d with books := d.books.map fun r => if r.ID = b.ID then { b with ID := r.ID } else r },
        b, none) := by
  simp [NewBookRepository, BookRepository.UpdateBook, sqlx.updateByID, h]

theorem repo_update_fault (db : sqlx.DB) (d : Database) (b : Book) (e : String)
    (h : db.fault = some e) : (NewBookRepository db).UpdateBook d b = (d, b, some e) := by
  simp [NewBookRepository, BookRepository.UpdateBook, sqlx.updateByID, h]

theorem repo_update_succeeds (db : sqlx.DB) (d : Database) (b : Book)
    (h : ((NewBookRepository db).UpdateBook d b).2.2 = none) : db.fault = none := by
  rcases fault_cases db with h0 | ⟨e, he⟩
  · exact h0
  · rw [repo_update_fault db d b e he] at h
    simp at h

theorem repo_delete_ok (db : sqlx.DB) (d : Database) (id : Int) (h : db.fault = none) :
    (NewBookRepository db).DeleteBook d id =
      ({ d with books := d.books.filter fun r => decide (r.ID ≠ id) }, none) := by
  simp [NewBookRepository, BookRepository.DeleteBook, sqlx.deleteByID, h]

theorem repo_delete_fault (db : sqlx.DB) (d : Database) (id : Int) (e : String)
    (h : db.fault = some e) : (NewBookRepository db).DeleteBook d id = (d, some e) := by
  simp [NewBookRepository, BookRepository.DeleteBook, sqlx.deleteByID, h]

theorem repo_delete_succeeds (db : sqlx.DB) (d : Database) (id : Int)
    (h : ((NewBookRepository db).DeleteBook d id).2 = none) : db.fault = none := by
  rcases fault_cases db with h0 | ⟨e, he⟩
  · exact h0
  · rw [repo_delete_fault db d id e he] at h
    simp at h

theorem scanAll_some (l rows : List Book) : sqlx.scanAll (some l) rows = some (l ++ rows) := by
  induction rows generalizing l with
  | nil => simp [sqlx.scanAll]
  | cons r rs ih =>
    have h := ih (l ++ [r])
    simp only [sqlx.scanAll, List.foldl_cons, goAppend, Option.getD_some] at h ⊢
    rw [h]
    simp

theorem scanAll_nil_dest (rows : List Book) :
    sqlx.scanAll none rows = if rows = [] then none else some rows := by
  cases rows with
  | nil => simp [sqlx.scanAll]
  | cons r rs =>
    have h := scanAll_some [r] rs
    simp only [sqlx.scanAll, List.foldl_cons, goAppend, Option.getD_none, List.nil_append] at h ⊢
    rw [h]
    simp

theorem repo_get_ok (db : sqlx.DB) (d : Database) (h : db.fault = none ∧ db.rowsErr = none) :
    (NewBookRepository db).GetBooks d = (d, if d.books = [] then none else some d.books, none) := by
  simp [NewBookRepository, BookRepository.GetBooks, sqlx.selectAll, h.1, h.2, scanAll_nil_dest]

theorem repo_get_fault (db : sqlx.DB) (d : Database) (e : String) (h : db.fault = some e) :
    (NewBookRepository db).GetBooks d = (d, none, some e) := by
  simp [NewBookRepository, BookRepository.GetBooks, sqlx.selectAll, h]

theorem repo_get_rows_lost (db : sqlx.DB) (d : Database) (e : String) (h : db.fault = none)
    (hr : db.rowsErr = some e) : (NewBookRepository db).GetBooks d = (d, none, some e) := by
  simp [NewBookRepository, BookRepository.GetBooks, sqlx.selectAll, h, hr]

theorem repo_get_succeeds (db : sqlx.DB) (d : Database)
    (h : ((NewBookRepository db).GetBooks d).2.2 = none) :
    db.fault = none ∧ db.rowsErr = none := by
  rcases fault_cases db with h0 | ⟨e, he⟩
  · rcases rowsErr_cases db with h1 | ⟨e, he⟩
    · exact ⟨h0, h1⟩
    · rw [repo_get_rows_lost db d e h0 he] at h
      simp at h
  · rw [repo_get_fault db d e he] at h
    simp at h

/-- The rows a listing returns, whichever of nil and empty the slice is. -/
theorem repo_get_rows (db : sqlx.DB) (d : Database) (h : db.fault = none ∧ db.rowsErr = none) :
    ((NewBookRepository db).GetBooks d).2.1.getD [] = d.books := by
  rw [repo_get_ok db d h]
  by_cases hb : d.books = []
  · simp [hb]
  · simp [hb]

/-! ## What the helpers of the response writer leave behind -/

theorem error_code (msg : String) (c : Nat) : (http.Error http.NewRecorder msg c).Code = c := by
  simp [http.Error, http.ResponseWriter.Write, http.ResponseWriter.WriteHeader,
    http.ResponseWriter.Code, http.NewRecorder]

theorem error_body (msg : String) (c : Nat) :
    (http.Error http.NewRecorder msg c).body = [http.Payload.text (msg ++ "\n")] := by
  simp [http.Error, http.ResponseWriter.Write, http.ResponseWriter.WriteHeader, http.NewRecorder]

theorem encode_code (v : JSON) : (json.Encode http.NewRecorder v).Code = http.StatusOK := by
  simp [json.Encode, http.ResponseWriter.Write, http.ResponseWriter.WriteHeader,
    http.ResponseWriter.Code, http.NewRecorder]

theorem encode_body (v : JSON) :
    (json.Encode http.NewRecorder v).body = [http.Payload.json v] := by
  simp [json.Encode, http.ResponseWriter.Write, http.ResponseWriter.WriteHeader, http.NewRecorder]

theorem encode_after_header_code (c : Nat) (v : JSON) :
    (json.Encode (http.NewRecorder.WriteHeader c) v).Code = c := by
  simp [json.Encode, http.ResponseWriter.Write, http.ResponseWriter.WriteHeader,
    http.ResponseWriter.Code, http.NewRecorder]

theorem encode_after_header_body (c : Nat) (v : JSON) :
    (json.Encode (http.NewRecorder.WriteHeader c) v).body = [http.Payload.json v] := by
  simp [json.Encode, http.ResponseWriter.Write, http.ResponseWriter.WriteHeader, http.NewRecorder]

theorem header_only_code (c : Nat) : (http.NewRecorder.WriteHeader c).Code = c := by
  simp [http.ResponseWriter.WriteHeader, http.ResponseWriter.Code, http.NewRecorder]

theorem header_only_body (c : Nat) : (http.NewRecorder.WriteHeader c).body = [] := by
  simp [http.ResponseWriter.WriteHeader, http.NewRecorder]

/-! ## Handlers: creation, validation and identifier parsing -/

/-- When the result row of the insert is read, a valid book posted on a
repository whose create succeeds gets the status 201 and as body the created
book: its identifier is the non-zero one the store assigned to the new row,
its other fields are the submitted ones. -/
theorem create_responds_201_with_assigned_id_when_row_read (db : sqlx.DB) (d : Database)
    (r : handlers.Request) (book : Book) (hbody : r.body = some book) (htitle : book.Title ≠ "")
    (hauthor : book.Author ≠ "") (hprogress : 0 ≤ book.Progress)
    (hok : ((NewBookRepository db).CreateBook d book).2.2 = none)
    (hrows : db.rowsErr = none) :
    (handlers.CreateBook (NewBookRepository db) d http.NewRecorder r).2.Code = 201 ∧
    ∃ created : Book,
      (handlers.CreateBook (NewBookRepository db) d http.NewRecorder r).2.body
        = [http.Payload.json (json.marshalBook created)] ∧
      created.ID ≠ 0 ∧
      created.ID = ((NewBookRepository db).CreateBook d book).2.1.ID ∧
      created ∈ (handlers.CreateBook (NewBookRepository db) d http.NewRecorder r).1.books ∧
      created.Title = book.Title ∧ created.Author = book.Author ∧
      created.Progress = book.Progress ∧ created.Notes = book.Notes ∧
      created.Finished = book.Finished ∧ created.Rating = book.Rating := by
  have hf : db.fault = none ∧ db.rowsErr = none := ⟨repo_create_succeeds db d book hok, hrows⟩
  have hv : ¬ (book.Title = "" ∨ book.Author = "" ∨ book.Progress < 0) := by
    simp [htitle, hauthor, not_lt.mpr hprogress]
  have hrun : handlers.CreateBook (NewBookRepository db) d http.NewRecorder r =
      ({ books := d.books ++ [{ book with ID := ((d.lastID + 1 : Nat) : Int) }],
         lastID := d.lastID + 1 },
        json.Encode (http.NewRecorder.WriteHeader http.StatusCreated)
          (json.marshalBook { book with ID := ((d.lastID + 1 : Nat) : Int) })) := by
    simp only [handlers.CreateBook, hbody, if_neg hv, repo_create_ok db d book hf]
  rw [hrun, repo_create_ok db d book hf]
  refine ⟨by rw [encode_after_header_code]; rfl,
    { book with ID := ((d.lastID + 1 : Nat) : Int) }, ?_, ?_, rfl, ?_, rfl, rfl, rfl, rfl, rfl, rfl⟩
  · exact encode_after_header_body _ _
  · simp only [ne_eq]
    omega
  · simp

/-- The example of the specification: the Dune book posted on the fresh store,
through a handle that delivers the result row, gets 201 and the identifier 1. -/
theorem create_dune_on_fresh_store_gets_id_1 :
    (handlers.CreateBook (NewBookRepository healthy) freshDatabase http.NewRecorder
        { id := "", body := some duneBook }).2.Code = 201 ∧
    (handlers.CreateBook (NewBookRepository healthy) freshDatabase http.NewRecorder
        { id := "", body := some duneBook }).2.body
      = [http.Payload.json (json.marshalBook
          { ID := 1, Title := "Dune", Author := "Herbert", Progress := 0, Notes := "",
            Finished := false, Rating := 0 })] :=
  ⟨rfl, rfl⟩

/-- When the call that sends the insert returns no error but the result row is
not delivered, whatever the store and the valid book: the create of the
repository returns no error, the handler answers 201, and the body is the book
with the identifier it was decoded with, not one the store assigned. -/
theorem create_responds_201_with_decoded_id_when_row_not_read (db : sqlx.DB) (d : Database)
    (r : handlers.Request) (book : Book) (e : String) (hbody : r.body = some book)
    (htitle : book.Title ≠ "") (hauthor : book.Author ≠ "") (hprogress : 0 ≤ book.Progress)
    (hfault : db.fault = none) (hrows : db.rowsErr = some e) :
    ((NewBookRepository db).CreateBook d book).2.2 = none ∧
    (handlers.CreateBook (NewBookRepository db) d http.NewRecorder r).2.Code = 201 ∧
    (handlers.CreateBook (NewBookRepository db) d http.NewRecorder r).2.body
      = [http.Payload.json (json.marshalBook book)] := by
  have hv : ¬ (book.Title = "" ∨ book.Author = "" ∨ book.Progress < 0) := by
    simp [htitle, hauthor, not_lt.mpr hprogress]
  have hrun : (handlers.CreateBook (NewBookRepository db) d http.NewRecorder r).2 =
      json.Encode (http.NewRecorder.WriteHeader http.StatusCreated) (json.marshalBook book) := by
    simp only [handlers.CreateBook, hbody, if_neg hv, repo_create_rows_lost db d book e hfault hrows]
  rw [hrun, repo_create_rows_lost db d book e hfault hrows]
  exact ⟨rfl, by rw [encode_after_header_code]; rfl, encode_after_header_body _ _⟩

/-- C1 does not hold at this input: the Dune book is posted on the fresh store,
the insert is executed, and the iteration over its result rows ends with
an error before the row is read.  The create of the repository returns no
error, the handler answers 201, and the body carries the identifier 0 the book
was decoded with, while the row the store now holds has the identifier 1. -/
theorem create_answers_201_with_id_0_when_row_not_read :
    (duneBook.Title ≠ "" ∧ duneBook.Author ≠ "" ∧ 0 ≤ duneBook.Progress) ∧
    ((NewBookRepository (rowsLost "context canceled" true)).CreateBook
      freshDatabase duneBook).2.2 = none ∧
    (handlers.CreateBook (NewBookRepository (rowsLost "context canceled" true)) freshDatabase
      http.NewRecorder { id := "", body := some duneBook }).2.Code = 201 ∧
    (handlers.CreateBook (NewBookRepository (rowsLost "context canceled" true)) freshDatabase
      http.NewRecorder { id := "", body := some duneBook }).2.body
      = [http.Payload.json (json.marshalBook
          { ID := 0, Title := "Dune", Author := "Herbert", Progress := 0, Notes := "",
            Finished := false, Rating := 0 })] ∧
    (handlers.CreateBook (NewBookRepository (rowsLost "context canceled" true)) freshDatabase
      http.NewRecorder { id := "", body := some duneBook }).1
      = { books := [{ ID := 1, Title := "Dune", Author := "Herbert", Progress := 0, Notes := "",
                      Finished := false, Rating := 0 }],
          lastID := 1 } :=
  ⟨⟨by decide, by decide, by decide⟩, rfl, rfl, rfl, rfl⟩

/-- C2: when the body of a create or update request does not decode, or decodes
to a book with an empty title, an empty author or a negative progress, the
status is 400 and the state behind the repository is the one before the request,
whatever the repository and whatever the route variable: no method of the
repository ran, so no row was added or changed. -/
theorem invalid_body_responds_400_without_repository {σ : Type}
    (repo : BookRepositoryInterface σ) (s : σ) (r : handlers.Request)
    (hbad : r.body = none ∨
      ∃ book, r.body = some book ∧ (book.Title = "" ∨ book.Author = "" ∨ book.Progress < 0)) :
    (handlers.CreateBook repo s http.NewRecorder r).2.Code = 400 ∧
    (handlers.CreateBook repo s http.NewRecorder r).1 = s ∧
    (handlers.UpdateBook repo s http.NewRecorder r).2.Code = 400 ∧
    (handlers.UpdateBook repo s http.NewRecorder r).1 = s := by
  rcases hbad with hnone | ⟨book, hsome, hinv⟩
  · refine ⟨?_, ?_, ?_, ?_⟩
    · simp only [handlers.CreateBook, hnone, error_code]; rfl
    · simp only [handlers.CreateBook, hnone]
    · cases hid : strconv.Atoi r.id with
      | none => simp only [handlers.UpdateBook, hid, error_code]; rfl
      | some id => simp only [handlers.UpdateBook, hid, hnone, error_code]; rfl
    · cases hid : strconv.Atoi r.id with
      | none => simp only [handlers.UpdateBook, hid]
      | some id => simp only [handlers.UpdateBook, hid, hnone]
  · refine ⟨?_, ?_, ?_, ?_⟩
    · simp only [handlers.CreateBook, hsome, if_pos hinv, error_code]; rfl
    · simp only [handlers.CreateBook, hsome, if_pos hinv]
    · cases hid : strconv.Atoi r.id with
      | none => simp only [handlers.UpdateBook, hid, error_code]; rfl
      | some id => simp only [handlers.UpdateBook, hid, hsome, if_pos hinv, error_code]; rfl
    · cases hid : strconv.Atoi r.id with
      | none => simp only [handlers.UpdateBook, hid]
      | some id => simp only [handlers.UpdateBook, hid, hsome, if_pos hinv]

theorem invalid_body_responds_400_without_repository_witness :
    ({ duneBook with Progress := -1 }.Progress < 0) ∧
    (handlers.CreateBook (recordingRepository none) [] http.NewRecorder
        { id := "1", body := some { duneBook with Progress := -1 } }).2.Code = 400 ∧
    (handlers.CreateBook (recordingRepository none) [] http.NewRecorder
        { id := "1", body := some { duneBook with Progress := -1 } }).1 = [] ∧
    (handlers.UpdateBook (recordingRepository none) [] http.NewRecorder
        { id := "1", body := some { duneBook with Progress := -1 } }).2.Code = 400 ∧
    (handlers.UpdateBook (recordingRepository none) [] http.NewRecorder
        { id := "1", body := some { duneBook with Progress := -1 } }).1 = [] :=
  ⟨by decide,
    invalid_body_responds_400_without_repository (recordingRepository none) []
      { id := "1", body := some { duneBook with Progress := -1 } }
      (Or.inr ⟨{ duneBook with Progress := -1 }, rfl, Or.inr (Or.inr (by decide))⟩)⟩

/-- C3: a route variable that parses as an integer and a body that decodes to a
valid book, on a repository whose update succeeds, get the status 200 and as
body the submitted book with its identifier replaced by the parsed one; the
identifier of the body plays no part. -/
theorem update_valid_book_responds_200 (db : sqlx.DB) (d : Database) (r : handlers.Request)
    (id : Int) (book : Book) (hid : strconv.Atoi r.id = some id) (hbody : r.body = some book)
    (htitle : book.Title ≠ "") (hauthor : book.Author ≠ "") (hprogress : 0 ≤ book.Progress)
    (hok : ((NewBookRepository db).UpdateBook d { book with ID := id }).2.2 = none) :
    (handlers.UpdateBook (NewBookRepository db) d http.NewRecorder r).2.Code = 200 ∧
    (handlers.UpdateBook (NewBookRepository db) d http.NewRecorder r).2.body
      = [http.Payload.json (json.marshalBook
          { ID := id, Title := book.Title, Author := book.Author, Progress := book.Progress,
            Notes := book.Notes, Finished := book.Finished, Rating := book.Rating })] := by
  have hf := repo_update_succeeds db d _ hok
  have hv : ¬ (book.Title = "" ∨ book.Author = "" ∨ book.Progress < 0) := by
    simp [htitle, hauthor, not_lt.mpr hprogress]
  have hrun : handlers.UpdateBook (NewBookRepository db) d http.NewRecorder r =
      ({ d with books := d.books.map fun row =>
            if row.ID = id then { book with ID := row.ID } else row },
        json.Encode http.NewRecorder (json.marshalBook { book with ID := id })) := by
    simp only [handlers.UpdateBook, hid, hbody, if_neg hv, repo_update_ok db d _ hf]
  rw [hrun]
  exact ⟨by rw [encode_code]; rfl, encode_body _⟩

theorem update_valid_book_responds_200_witness :
    (strconv.Atoi "3" = some 3 ∧ emmaBook.Title ≠ "" ∧ emmaBook.Author ≠ "" ∧
      0 ≤ emmaBook.Progress) ∧
    (handlers.UpdateBook (NewBookRepository healthy) freshDatabase http.NewRecorder
        { id := "3", body := some emmaBook }).2.Code = 200 ∧
    (handlers.UpdateBook (NewBookRepository healthy) freshDatabase http.NewRecorder
        { id := "3", body := some emmaBook }).2.body
      = [http.Payload.json (json.marshalBook
          { ID := 3, Title := "Emma", Author := "Austen", Progress := 40, Notes := "reread",
            Finished := true, Rating := 5 })] :=
  ⟨⟨by decide, by decide, by decide, by decide⟩,
    update_valid_book_responds_200 healthy freshDatabase { id := "3", body := some emmaBook }
      3 emmaBook (by decide) rfl (by decide) (by decide) (by decide) rfl⟩

/-- C4: when the route variable does not parse as an integer, the update and
the delete handlers answer 400 whatever the body is, and the state behind the
repository is the one before the request, whatever the repository: neither its
update nor its delete ran. -/
theorem non_numeric_id_responds_400_without_repository {σ : Type}
    (repo : BookRepositoryInterface σ) (s : σ) (r : handlers.Request)
    (hid : strconv.Atoi r.id = none) :
    (handlers.UpdateBook repo s http.NewRecorder r).2.Code = 400 ∧
    (handlers.UpdateBook repo s http.NewRecorder r).1 = s ∧
    (handlers.DeleteBook repo s http.NewRecorder r).2.Code = 400 ∧
    (handlers.DeleteBook repo s http.NewRecorder r).1 = s := by
  refine ⟨?_, ?_, ?_, ?_⟩
  · simp only [handlers.UpdateBook, hid, error_code]; rfl
  · simp only [handlers.UpdateBook, hid]
  · simp only [handlers.DeleteBook, hid, error_code]; rfl
  · simp only [handlers.DeleteBook, hid]

theorem non_numeric_id_responds_400_without_repository_witness :
    strconv.Atoi "invalid" = none ∧
    (handlers.UpdateBook (recordingRepository none) [] http.NewRecorder
        { id := "invalid", body := some emmaBook }).2.Code = 400 ∧
    (handlers.UpdateBook (recordingRepository none) [] http.NewRecorder
        { id := "invalid", body := some emmaBook }).1 = [] ∧
    (handlers.DeleteBook (recordingRepository none) [] http.NewRecorder
        { id := "invalid", body := some emmaBook }).2.Code = 400 ∧
    (handlers.DeleteBook (recordingRepository none) [] http.NewRecorder
        { id := "invalid", body := some emmaBook }).1 = [] :=
  ⟨by decide,
    non_numeric_id_responds_400_without_repository (recordingRepository none) []
      { id := "invalid", body := some emmaBook } (by decide)⟩

/-! ## Handlers: deletion, store errors and listing -/

/-- C5: for an identifier that some row of the store carries, a delete request
whose route variable parses to it, on a store that executes the statement, gets
the status 204 and an empty body and leaves the store with fewer rows, and a
listing served afterwards answers 200
with the JSON of a slice in which no book has that identifier. -/
theorem delete_present_id_responds_204_and_unlists (db1 db2 : sqlx.DB) (d : Database)
    (r r2 : handlers.Request) (id : Int) (hid : strconv.Atoi r.id = some id)
    (hpresent : ∃ row ∈ d.books, row.ID = id)
    (hdel : ((NewBookRepository db1).DeleteBook d id).2 = none)
    (hlist : ((NewBookRepository db2).GetBooks
      (handlers.DeleteBook (NewBookRepository db1) d http.NewRecorder r).1).2.2 = none) :
    (handlers.DeleteBook (NewBookRepository db1) d http.NewRecorder r).2.Code = 204 ∧
    (handlers.DeleteBook (NewBookRepository db1) d http.NewRecorder r).2.body = [] ∧
    (handlers.DeleteBook (NewBookRepository db1) d http.NewRecorder r).1.books.length
      < d.books.length ∧
    (handlers.GetBooks (NewBookRepository db2)
      (handlers.DeleteBook (NewBookRepository db1) d http.NewRecorder r).1
      http.NewRecorder r2).2.Code = 200 ∧
    (handlers.GetBooks (NewBookRepository db2)
      (handlers.DeleteBook (NewBookRepository db1) d http.NewRecorder r).1
      http.NewRecorder r2).2.body
      = [http.Payload.json (json.marshalBooks ((NewBookRepository db2).GetBooks
          (handlers.DeleteBook (NewBookRepository db1) d http.NewRecorder r).1).2.1)] ∧
    ∀ listed ∈ (((NewBookRepository db2).GetBooks
        (handlers.DeleteBook (NewBookRepository db1) d http.NewRecorder r).1).2.1).getD [],
      listed.ID ≠ id := by
  have hf1 := repo_delete_succeeds db1 d id hdel
  have hrun : handlers.DeleteBook (NewBookRepository db1) d http.NewRecorder r =
      ({ d with books := d.books.filter fun row => decide (row.ID ≠ id) },
        http.NewRecorder.WriteHeader http.StatusNoContent) := by
    simp only [handlers.DeleteBook, hid, repo_delete_ok db1 d id hf1]
  rw [hrun] at hlist ⊢
  have hf2 := repo_get_succeeds db2 _ hlist
  refine ⟨by rw [header_only_code]; rfl, header_only_body _, ?_, ?_, ?_, ?_⟩
  · obtain ⟨row, hrow, hrowid⟩ := hpresent
    exact List.length_filter_lt_length_iff_exists.mpr ⟨row, hrow, by simp [hrowid]⟩
  · simp only [handlers.GetBooks, repo_get_ok db2 _ hf2, encode_code]; rfl
  · simp only [handlers.GetBooks, repo_get_ok db2 _ hf2, encode_body]
  · rw [repo_get_rows db2 _ hf2]
    intro listed hmem
    simpa using (List.mem_filter.mp hmem).2

theorem delete_present_id_responds_204_and_unlists_witness :
    (strconv.Atoi "7" = some 7 ∧ ∃ row ∈ ({ books := [emmaBook], lastID := 7 } : Database).books,
      row.ID = 7) ∧
    (handlers.DeleteBook (NewBookRepository healthy) { books := [emmaBook], lastID := 7 }
      http.NewRecorder { id := "7", body := none }).2.Code = 204 ∧
    (handlers.DeleteBook (NewBookRepository healthy) { books := [emmaBook], lastID := 7 }
      http.NewRecorder { id := "7", body := none }).2.body = [] :=
  ⟨⟨by decide, emmaBook, by decide, by decide⟩,
    (delete_present_id_responds_204_and_unlists healthy healthy
      { books := [emmaBook], lastID := 7 } { id := "7", body := none } { id := "", body := none }
      7 (by decide) ⟨emmaBook, by decide, by decide⟩ rfl rfl).1,
    (delete_present_id_responds_204_and_unlists healthy healthy
      { books := [emmaBook], lastID := 7 } { id := "7", body := none } { id := "", body := none }
      7 (by decide) ⟨emmaBook, by decide, by decide⟩ rfl rfl).2.1⟩

/-- C6: for each of the four handlers and any repository, when the request
passes identifier parsing, body decoding and field validation and the method of
the repository returns an error, the status is 500, which is no success code,
and the body is the text of that error, unchanged, with the line end that
`http.Error` writes after it. -/
theorem repository_error_responds_500_with_text {σ : Type} (repo : BookRepositoryInterface σ)
    (s : σ) (r : handlers.Request) (e : String) :
    (∀ book, r.body = some book → book.Title ≠ "" → book.Author ≠ "" → 0 ≤ book.Progress →
      (repo.CreateBook s book).2.2 = some e →
      (handlers.CreateBook repo s http.NewRecorder r).2.Code = 500 ∧
      ¬ (200 ≤ (handlers.CreateBook repo s http.NewRecorder r).2.Code ∧
          (handlers.CreateBook repo s http.NewRecorder r).2.Code < 300) ∧
      (handlers.CreateBook repo s http.NewRecorder r).2.body = [http.Payload.text (e ++ "\n")]) ∧
    ((repo.GetBooks s).2.2 = some e →
      (handlers.GetBooks repo s http.NewRecorder r).2.Code = 500 ∧
      ¬ (200 ≤ (handlers.GetBooks repo s http.NewRecorder r).2.Code ∧
          (handlers.GetBooks repo s http.NewRecorder r).2.Code < 300) ∧
      (handlers.GetBooks repo s http.NewRecorder r).2.body = [http.Payload.text (e ++ "\n")]) ∧
    (∀ id book, strconv.Atoi r.id = some id → r.body = some book → book.Title ≠ "" →
      book.Author ≠ "" → 0 ≤ book.Progress →
      (repo.UpdateBook s { book with ID := id }).2.2 = some e →
      (handlers.UpdateBook repo s http.NewRecorder r).2.Code = 500 ∧
      ¬ (200 ≤ (handlers.UpdateBook repo s http.NewRecorder r).2.Code ∧
          (handlers.UpdateBook repo s http.NewRecorder r).2.Code < 300) ∧
      (handlers.UpdateBook repo s http.NewRecorder r).2.body = [http.Payload.text (e ++ "\n")]) ∧
    (∀ id, strconv.Atoi r.id = some id → (repo.DeleteBook s id).2 = some e →
      (handlers.DeleteBook repo s http.NewRecorder r).2.Code = 500 ∧
      ¬ (200 ≤ (handlers.DeleteBook repo s http.NewRecorder r).2.Code ∧
          (handlers.DeleteBook repo s http.NewRecorder r).2.Code < 300) ∧
      (handlers.DeleteBook repo s http.NewRecorder r).2.body = [http.Payload.text (e ++ "\n")]) := by
  have h500 : ∀ w : http.ResponseWriter, w.Code = 500 → ¬ (200 ≤ w.Code ∧ w.Code < 300) := by
    intro w hw
    omega
  have hcode : (http.Error http.NewRecorder e http.StatusInternalServerError).Code = 500 := by
    rw [error_code]; rfl
  refine ⟨?_, ?_, ?_, ?_⟩
  · intro book hbody htitle hauthor hprogress herr
    have hv : ¬ (book.Title = "" ∨ book.Author = "" ∨ book.Progress < 0) := by
      simp [htitle, hauthor, not_lt.mpr hprogress]
    have hrun : (handlers.CreateBook repo s http.NewRecorder r).2 =
        http.Error http.NewRecorder e http.StatusInternalServerError := by
      rcases hres : repo.CreateBook s book with ⟨s1, b1, err⟩
      rw [hres] at herr
      simp only at herr
      subst herr
      simp only [handlers.CreateBook, hbody, if_neg hv, hres]
    rw [hrun]
    exact ⟨hcode, h500 _ hcode, error_body _ _⟩
  · intro herr
    have hrun : (handlers.GetBooks repo s http.NewRecorder r).2 =
        http.Error http.NewRecorder e http.StatusInternalServerError := by
      rcases hres : repo.GetBooks s with ⟨s1, bs, err⟩
      rw [hres] at herr
      simp only at herr
      subst herr
      simp only [handlers.GetBooks, hres]
    rw [hrun]
    exact ⟨hcode, h500 _ hcode, error_body _ _⟩
  · intro id book hid hbody htitle hauthor hprogress herr
    have hv : ¬ (book.Title = "" ∨ book.Author = "" ∨ book.Progress < 0) := by
      simp [htitle, hauthor, not_lt.mpr hprogress]
    have hrun : (handlers.UpdateBook repo s http.NewRecorder r).2 =
        http.Error http.NewRecorder e http.StatusInternalServerError := by
      rcases hres : repo.UpdateBook s { book with ID := id } with ⟨s1, b1, err⟩
      rw [hres] at herr
      simp only at herr
      subst herr
      simp only [handlers.UpdateBook, hid, hbody, if_neg hv, hres]
    rw [hrun]
    exact ⟨hcode, h500 _ hcode, error_body _ _⟩
  · intro id hid herr
    have hrun : (handlers.DeleteBook repo s http.NewRecorder r).2 =
        http.Error http.NewRecorder e http.StatusInternalServerError := by
      rcases hres : repo.DeleteBook s id with ⟨s1, err⟩
      rw [hres] at herr
      simp only at herr
      subst herr
      simp only [handlers.DeleteBook, hid, hres]
    rw [hrun]
    exact ⟨hcode, h500 _ hcode, error_body _ _⟩

theorem repository_error_responds_500_with_text_witness :
    (strconv.Atoi "7" = some 7 ∧
      ((NewBookRepository (failing "database error")).DeleteBook freshDatabase 7).2
        = some "database error") ∧
    (handlers.DeleteBook (NewBookRepository (failing "database error")) freshDatabase
      http.NewRecorder { id := "7", body := some emmaBook }).2.Code = 500 ∧
    (handlers.DeleteBook (NewBookRepository (failing "database error")) freshDatabase
      http.NewRecorder { id := "7", body := some emmaBook }).2.body
      = [http.Payload.text "database error\n"] ∧
    (handlers.CreateBook (NewBookRepository (failing "database error")) freshDatabase
      http.NewRecorder { id := "7", body := some emmaBook }).2.Code = 500 ∧
    (handlers.GetBooks (NewBookRepository (failing "database error")) freshDatabase
      http.NewRecorder { id := "7", body := some emmaBook }).2.Code = 500 ∧
    (handlers.UpdateBook (NewBookRepository (failing "database error")) freshDatabase
      http.NewRecorder { id := "7", body := some emmaBook }).2.Code = 500 :=
  ⟨⟨by decide, rfl⟩,
    ((repository_error_responds_500_with_text (NewBookRepository (failing "database error"))
      freshDatabase { id := "7", body := some emmaBook } "database error").2.2.2
        7 (by decide) rfl).1,
    ((repository_error_responds_500_with_text (NewBookRepository (failing "database error"))
      freshDatabase { id := "7", body := some emmaBook } "database error").2.2.2
        7 (by decide) rfl).2.2,
    ((repository_error_responds_500_with_text (NewBookRepository (failing "database error"))
      freshDatabase { id := "7", body := some emmaBook } "database error").1
        emmaBook rfl (by decide) (by decide) (by decide) rfl).1,
    ((repository_error_responds_500_with_text (NewBookRepository (failing "database error"))
      freshDatabase { id := "7", body := some emmaBook } "database error").2.1 rfl).1,
    ((repository_error_responds_500_with_text (NewBookRepository (failing "database error"))
      freshDatabase { id := "7", body := some emmaBook } "database error").2.2.1
        7 emmaBook (by decide) rfl (by decide) (by decide) (by decide) rfl).1⟩

/-- C7, at the empty store: the list of the repository succeeds and the handler
answers 200, but what it encodes is the nil slice that the row loop never
touched, so the body is the JSON value null and not the empty JSON array. -/
theorem list_of_empty_store_is_json_null (n : Nat) (r : handlers.Request) :
    ((NewBookRepository healthy).GetBooks { books := [], lastID := n }).2.2 = none ∧
    (handlers.GetBooks (NewBookRepository healthy) { books := [], lastID := n }
      http.NewRecorder r).2.Code = 200 ∧
    (handlers.GetBooks (NewBookRepository healthy) { books := [], lastID := n }
      http.NewRecorder r).2.body = [http.Payload.json JSON.null] ∧
    (handlers.GetBooks (NewBookRepository healthy) { books := [], lastID := n }
      http.NewRecorder r).2.body ≠ [http.Payload.json (JSON.arr [])] := by
  have hbody : (handlers.GetBooks (NewBookRepository healthy) { books := [], lastID := n }
      http.NewRecorder r).2.body = [http.Payload.json JSON.null] := rfl
  refine ⟨rfl, rfl, hbody, ?_⟩
  rw [hbody]
  simp

/-- Listing a store that has rows: 200 and the JSON array of the rows, one
element for each, in the order the statement returned them. -/
theorem list_of_nonempty_store_is_json_array (db : sqlx.DB) (d : Database)
    (r : handlers.Request) (hrows : d.books ≠ [])
    (hok : ((NewBookRepository db).GetBooks d).2.2 = none) :
    (handlers.GetBooks (NewBookRepository db) d http.NewRecorder r).2.Code = 200 ∧
    (handlers.GetBooks (NewBookRepository db) d http.NewRecorder r).2.body
      = [http.Payload.json (JSON.arr (d.books.map json.marshalBook))] := by
  have hf := repo_get_succeeds db d hok
  constructor
  · simp only [handlers.GetBooks, repo_get_ok db d hf, encode_code]; rfl
  · simp only [handlers.GetBooks, repo_get_ok db d hf, encode_body, if_neg hrows,
      json.marshalBooks]

/-! ## Creation and update as seen by a later listing -/

theorem count_map_replace (l : List Book) (book other : Book) (id : Int) (h : other.ID ≠ id) :
    (l.map fun row => if row.ID = id then { book with ID := row.ID } else row).count other
      = l.count other := by
  induction l with
  | nil => simp
  | cons row rest ih =>
    simp only [List.map_cons, List.count_cons, ih]
    by_cases hrow : row.ID = id
    · have h1 : ¬ (({ book with ID := row.ID } : Book) = other) := by
        intro heq
        apply h
        rw [← heq]
        exact hrow
      have h2 : ¬ (row = other) := by
        intro heq
        apply h
        rw [← heq]
        exact hrow
      simp [hrow, h1, h2]
      intro heq
      apply h
      rw [← heq]
    · simp [hrow]

/-- When the result row of the insert is read, a valid book posted to any store
whose create succeeds is found by a listing that succeeds afterwards: the
listed slice is not nil, the handler answers with the JSON array of its books,
and one of them has the identifier the create left in the book and the title,
author, progress, notes, finished flag and rating of the posted book. -/
theorem create_then_list_contains_created_when_row_read (db1 db2 : sqlx.DB) (d : Database)
    (r r2 : handlers.Request) (book : Book) (hbody : r.body = some book)
    (htitle : book.Title ≠ "") (hauthor : book.Author ≠ "") (hprogress : 0 ≤ book.Progress)
    (hcreate : ((NewBookRepository db1).CreateBook d book).2.2 = none)
    (hrows : db1.rowsErr = none)
    (hlist : ((NewBookRepository db2).GetBooks
      (handlers.CreateBook (NewBookRepository db1) d http.NewRecorder r).1).2.2 = none) :
    (handlers.CreateBook (NewBookRepository db1) d http.NewRecorder r).1
      = ((NewBookRepository db1).CreateBook d book).1 ∧
    ∃ listed : List Book,
      ((NewBookRepository db2).GetBooks
        (handlers.CreateBook (NewBookRepository db1) d http.NewRecorder r).1).2.1 = some listed ∧
      (handlers.GetBooks (NewBookRepository db2)
        (handlers.CreateBook (NewBookRepository db1) d http.NewRecorder r).1
        http.NewRecorder r2).2.body = [http.Payload.json (JSON.arr (listed.map json.marshalBook))] ∧
      ∃ created ∈ listed,
        created.ID = ((NewBookRepository db1).CreateBook d book).2.1.ID ∧
        created.Title = book.Title ∧ created.Author = book.Author ∧
        created.Progress = book.Progress ∧ created.Notes = book.Notes ∧
        created.Finished = book.Finished ∧ created.Rating = book.Rating := by
  have hf1 : db1.fault = none ∧ db1.rowsErr = none :=
    ⟨repo_create_succeeds db1 d book hcreate, hrows⟩
  have hv : ¬ (book.Title = "" ∨ book.Author = "" ∨ book.Progress < 0) := by
    simp [htitle, hauthor, not_lt.mpr hprogress]
  have hrun : (handlers.CreateBook (NewBookRepository db1) d http.NewRecorder r).1 =
      { books := d.books ++ [{ book with ID := ((d.lastID + 1 : Nat) : Int) }],
        lastID := d.lastID + 1 } := by
    simp only [handlers.CreateBook, hbody, if_neg hv, repo_create_ok db1 d book hf1]
  rw [hrun] at hlist ⊢
  have hf2 := repo_get_succeeds db2 _ hlist
  rw [repo_create_ok db1 d book hf1]
  refine ⟨rfl, d.books ++ [{ book with ID := ((d.lastID + 1 : Nat) : Int) }], ?_, ?_,
    { book with ID := ((d.lastID + 1 : Nat) : Int) }, by simp, rfl, rfl, rfl, rfl, rfl, rfl, rfl⟩
  · simp [repo_get_ok db2 _ hf2]
  · simp [handlers.GetBooks, repo_get_ok db2 _ hf2, encode_body, json.marshalBooks]

/-- C9: for an identifier that some row of the store carries and a valid book,
an update whose statement succeeds replaces every field but the identifier: a
listing that succeeds afterwards has a book with that identifier, every listed
book with that identifier has the identifier unchanged and exactly the new
title, author, progress, notes, finished flag and rating, and every book with
another identifier is listed as many times as it was stored before, among as
many books as before. -/
theorem update_replaces_fields_and_keeps_others (db1 db2 : sqlx.DB) (d : Database)
    (r : handlers.Request) (id : Int) (book : Book)
    (hid : strconv.Atoi r.id = some id) (hbody : r.body = some book)
    (hpresent : ∃ row ∈ d.books, row.ID = id)
    (htitle : book.Title ≠ "") (hauthor : book.Author ≠ "") (hprogress : 0 ≤ book.Progress)
    (hupdate : ((NewBookRepository db1).UpdateBook d { book with ID := id }).2.2 = none)
    (hlist : ((NewBookRepository db2).GetBooks
      (handlers.UpdateBook (NewBookRepository db1) d http.NewRecorder r).1).2.2 = none) :
    (handlers.UpdateBook (NewBookRepository db1) d http.NewRecorder r).1
      = ((NewBookRepository db1).UpdateBook d { book with ID := id }).1 ∧
    ∃ listed : List Book,
      ((NewBookRepository db2).GetBooks
        (handlers.UpdateBook (NewBookRepository db1) d http.NewRecorder r).1).2.1 = some listed ∧
      (∃ updated ∈ listed, updated.ID = id) ∧
      (∀ updated ∈ listed, updated.ID = id →
        updated.Title = book.Title ∧ updated.Author = book.Author ∧
        updated.Progress = book.Progress ∧ updated.Notes = book.Notes ∧
        updated.Finished = book.Finished ∧ updated.Rating = book.Rating) ∧
      (∀ other : Book, other.ID ≠ id → listed.count other = d.books.count other) ∧
      listed.length = d.books.length := by
  have hf1 := repo_update_succeeds db1 d _ hupdate
  have hv : ¬ (book.Title = "" ∨ book.Author = "" ∨ book.Progress < 0) := by
    simp [htitle, hauthor, not_lt.mpr hprogress]
  have hrun : (handlers.UpdateBook (NewBookRepository db1) d http.NewRecorder r).1 =
      { d with books := d.books.map fun row =>
          if row.ID = id then { book with ID := row.ID } else row } := by
    simp only [handlers.UpdateBook, hid, hbody, if_neg hv, repo_update_ok db1 d _ hf1]
  rw [hrun] at hlist ⊢
  have hf2 := repo_get_succeeds db2 _ hlist
  rw [repo_update_ok db1 d _ hf1]
  obtain ⟨row, hrow, hrowid⟩ := hpresent
  have hne : d.books ≠ [] := List.ne_nil_of_mem hrow
  refine ⟨rfl, d.books.map (fun row => if row.ID = id then { book with ID := row.ID } else row),
    ?_, ?_, ?_, ?_, ?_⟩
  · simp [repo_get_ok db2 _ hf2, hne]
  · refine ⟨{ book with ID := row.ID }, ?_, hrowid⟩
    exact List.mem_map.mpr ⟨row, hrow, by simp [hrowid]⟩
  · intro updated hmem hupd
    obtain ⟨src, _, hsrc⟩ := List.mem_map.mp hmem
    by_cases hs : src.ID = id
    · rw [if_pos hs] at hsrc
      subst hsrc
      exact ⟨rfl, rfl, rfl, rfl, rfl, rfl⟩
    · rw [if_neg hs] at hsrc
      subst hsrc
      exact absurd hupd hs
  · intro other hother
    exact count_map_replace d.books book other id hother
  · simp

theorem update_replaces_fields_and_keeps_others_witness :
    (strconv.Atoi "7" = some 7 ∧
      (∃ row ∈ ({ books := [emmaBook, { duneBook with ID := 2 }], lastID := 7 } : Database).books,
        row.ID = 7) ∧
      duneBook.Title ≠ "" ∧ duneBook.Author ≠ "" ∧ 0 ≤ duneBook.Progress) ∧
    ∃ listed : List Book,
      ((NewBookRepository healthy).GetBooks
        (handlers.UpdateBook (NewBookRepository healthy)
          { books := [emmaBook, { duneBook with ID := 2 }], lastID := 7 }
          http.NewRecorder { id := "7", body := some duneBook }).1).2.1 = some listed ∧
      (∃ updated ∈ listed, updated.ID = 7) ∧
      (∀ updated ∈ listed, updated.ID = 7 →
        updated.Title = duneBook.Title ∧ updated.Author = duneBook.Author ∧
        updated.Progress = duneBook.Progress ∧ updated.Notes = duneBook.Notes ∧
        updated.Finished = duneBook.Finished ∧ updated.Rating = duneBook.Rating) ∧
      (∀ other : Book, other.ID ≠ 7 → listed.count other
        = ({ books := [emmaBook, { duneBook with ID := 2 }], lastID := 7 } : Database).books.count
            other) ∧
      listed.length
        = ({ books := [emmaBook, { duneBook with ID := 2 }], lastID := 7 } : Database).books.length :=
  ⟨⟨by decide, ⟨emmaBook, by decide, by decide⟩, by decide, by decide, by decide⟩,
    (update_replaces_fields_and_keeps_others healthy healthy
      { books := [emmaBook, { duneBook with ID := 2 }], lastID := 7 }
      { id := "7", body := some duneBook } 7 duneBook (by decide) rfl
      ⟨emmaBook, by decide, by decide⟩ (by decide) (by decide) (by decide) rfl rfl).2⟩

/-! ## The invariant along every sequence of requests -/

theorem create_state (db : sqlx.DB) (d : Database) (w : http.ResponseWriter)
    (r : handlers.Request) :
    (handlers.CreateBook (NewBookRepository db) d w r).1 = d ∨
    ∃ book : Book, (book.Title ≠ "" ∧ book.Author ≠ "" ∧ 0 ≤ book.Progress) ∧
      (handlers.CreateBook (NewBookRepository db) d w r).1 =
        { books := d.books ++ [{ book with ID := ((d.lastID + 1 : Nat) : Int) }],
          lastID := d.lastID + 1 } := by
  cases hbody : r.body with
  | none => left; simp only [handlers.CreateBook, hbody]
  | some book =>
    by_cases hv : book.Title = "" ∨ book.Author = "" ∨ book.Progress < 0
    · left; simp only [handlers.CreateBook, hbody, if_pos hv]
    · have hvalid : book.Title ≠ "" ∧ book.Author ≠ "" ∧ 0 ≤ book.Progress := by
        simp only [not_or, not_lt] at hv
        exact hv
      rcases fault_cases db with hf | ⟨e, hf⟩
      · rcases rowsErr_cases db with hr | ⟨e, hr⟩
        · right
          refine ⟨book, hvalid, ?_⟩
          simp only [handlers.CreateBook, hbody, if_neg hv, repo_create_ok db d book ⟨hf, hr⟩]
        · cases happlied : db.applied with
          | false =>
            left
            simp [handlers.CreateBook, hbody, if_neg hv, repo_create_rows_lost db d book e hf hr,
              happlied]
          | true =>
            right
            refine ⟨book, hvalid, ?_⟩
            simp [handlers.CreateBook, hbody, if_neg hv, repo_create_rows_lost db d book e hf hr,
              happlied]
      · left; simp only [handlers.CreateBook, hbody, if_neg hv, repo_create_fault db d book e hf]

theorem get_state (db : sqlx.DB) (d : Database) (w : http.ResponseWriter) (r : handlers.Request) :
    (handlers.GetBooks (NewBookRepository db) d w r).1 = d := by
  rcases fault_cases db with hf | ⟨e, hf⟩
  · rcases rowsErr_cases db with hr | ⟨e, hr⟩
    · simp only [handlers.GetBooks, repo_get_ok db d ⟨hf, hr⟩]
    · simp only [handlers.GetBooks, repo_get_rows_lost db d e hf hr]
  · simp only [handlers.GetBooks, repo_get_fault db d e hf]

theorem update_state (db : sqlx.DB) (d : Database) (w : http.ResponseWriter)
    (r : handlers.Request) :
    (handlers.UpdateBook (NewBookRepository db) d w r).1 = d ∨
    ∃ (id : Int) (book : Book), (book.Title ≠ "" ∧ book.Author ≠ "" ∧ 0 ≤ book.Progress) ∧
      (handlers.UpdateBook (NewBookRepository db) d w r).1 =
        { d with books := d.books.map fun row =>
            if row.ID = id then { book with ID := row.ID } else row } := by
  cases hid : strconv.Atoi r.id with
  | none => left; simp only [handlers.UpdateBook, hid]
  | some id =>
    cases hbody : r.body with
    | none => left; simp only [handlers.UpdateBook, hid, hbody]
    | some book =>
      by_cases hv : book.Title = "" ∨ book.Author = "" ∨ book.Progress < 0
      · left; simp only [handlers.UpdateBook, hid, hbody, if_pos hv]
      · rcases fault_cases db with hf | ⟨e, hf⟩
        · right
          refine ⟨id, book, ?_, ?_⟩
          · simp only [not_or, not_lt] at hv
            exact hv
          · simp only [handlers.UpdateBook, hid, hbody, if_neg hv, repo_update_ok db d _ hf]
        · left
          simp only [handlers.UpdateBook, hid, hbody, if_neg hv, repo_update_fault db d _ e hf]

theorem delete_state (db : sqlx.DB) (d : Database) (w : http.ResponseWriter)
    (r : handlers.Request) :
    (handlers.DeleteBook (NewBookRepository db) d w r).1 = d ∨
    ∃ id : Int, (handlers.DeleteBook (NewBookRepository db) d w r).1 =
      { d with books := d.books.filter fun row => decide (row.ID ≠ id) } := by
  cases hid : strconv.Atoi r.id with
  | none => left; simp only [handlers.DeleteBook, hid]
  | some id =>
    rcases fault_cases db with hf | ⟨e, hf⟩
    · right
      exact ⟨id, by simp only [handlers.DeleteBook, hid, repo_delete_ok db d id hf]⟩
    · left; simp only [handlers.DeleteBook, hid, repo_delete_fault db d id e hf]

theorem consistent_insert (d : Database) (book : Book) (hd : d.consistent)
    (hv : book.Title ≠ "" ∧ book.Author ≠ "" ∧ 0 ≤ book.Progress) :
    Database.consistent
      { books := d.books ++ [{ book with ID := ((d.lastID + 1 : Nat) : Int) }],
        lastID := d.lastID + 1 } := by
  obtain ⟨hpair, hle, hval⟩ := hd
  refine ⟨?_, ?_, ?_⟩
  · refine List.pairwise_append.mpr ⟨hpair, List.pairwise_singleton _ _, ?_⟩
    intro a ha b hb
    rw [List.mem_singleton] at hb
    subst hb
    have := hle a ha
    simp only [ne_eq]
    push_cast
    omega
  · intro b hb
    rcases List.mem_append.mp hb with h | h
    · have := hle b h
      push_cast
      omega
    · rw [List.mem_singleton] at h
      subst h
      simp
  · intro b hb
    rcases List.mem_append.mp hb with h | h
    · exact hval b h
    · rw [List.mem_singleton] at h
      subst h
      exact hv

theorem consistent_replace (d : Database) (id : Int) (book : Book) (hd : d.consistent)
    (hv : book.Title ≠ "" ∧ book.Author ≠ "" ∧ 0 ≤ book.Progress) :
    Database.consistent { d with books := d.books.map fun row =>
      if row.ID = id then { book with ID := row.ID } else row } := by
  obtain ⟨hpair, hle, hval⟩ := hd
  have hsame : ∀ row : Book,
      (if row.ID = id then ({ book with ID := row.ID } : Book) else row).ID = row.ID := by
    intro row
    by_cases h : row.ID = id
    · rw [if_pos h]
    · rw [if_neg h]
  refine ⟨?_, ?_, ?_⟩
  · refine List.pairwise_map.mpr (hpair.imp ?_)
    intro a b hab
    rw [hsame a, hsame b]
    exact hab
  · intro b hb
    obtain ⟨src, hsrc, hb⟩ := List.mem_map.mp hb
    rw [← hb, hsame src]
    exact hle src hsrc
  · intro b hb
    obtain ⟨src, hsrc, hb⟩ := List.mem_map.mp hb
    by_cases h : src.ID = id
    · rw [if_pos h] at hb
      subst hb
      exact hv
    · rw [if_neg h] at hb
      subst hb
      exact hval _ hsrc

theorem consistent_remove (d : Database) (id : Int) (hd : d.consistent) :
    Database.consistent
      { d with books := d.books.filter fun row => decide (row.ID ≠ id) } := by
  obtain ⟨hpair, hle, hval⟩ := hd
  refine ⟨hpair.sublist (List.filter_sublist _), ?_, ?_⟩
  · intro b hb
    exact hle b (List.mem_filter.mp hb).1
  · intro b hb
    exact hval b (List.mem_filter.mp hb).1

theorem consistent_step (d : Database) (x : handlers.Exchange) (hd : d.consistent) :
    (handlers.RegisterBookHandlers x.db x.route d http.NewRecorder x.request).1.consistent := by
  cases hroute : x.route with
  | postBooks =>
    simp only [handlers.RegisterBookHandlers]
    rcases create_state x.db d http.NewRecorder x.request with h | ⟨book, hv, h⟩
    · rw [h]; exact hd
    · rw [h]; exact consistent_insert d book hd hv
  | getBooks =>
    simp only [handlers.RegisterBookHandlers]
    rw [get_state]
    exact hd
  | putBook =>
    simp only [handlers.RegisterBookHandlers]
    rcases update_state x.db d http.NewRecorder x.request with h | ⟨id, book, hv, h⟩
    · rw [h]; exact hd
    · rw [h]; exact consistent_replace d id book hd hv
  | deleteBook =>
    simp only [handlers.RegisterBookHandlers]
    rcases delete_state x.db d http.NewRecorder x.request with h | ⟨id, h⟩
    · rw [h]; exact hd
    · rw [h]; exact consistent_remove d id hd

theorem consistent_serve (reqs : List handlers.Exchange) (d : Database) (hd : d.consistent) :
    (handlers.serve d reqs).consistent := by
  induction reqs generalizing d with
  | nil => exact hd
  | cons x rest ih =>
    simp only [handlers.serve, List.foldl_cons]
    exact ih _ (consistent_step d x hd)

theorem consistent_empty (n : Nat) : Database.consistent { books := [], lastID := n } := by
  refine ⟨List.Pairwise.nil, ?_, ?_⟩
  · intro b hb
    simp at hb
  · intro b hb
    simp at hb

/-- C10: starting from the empty store, whatever the sequence was has already
handed out, after every finite sequence of create, list, update and delete
requests served by the registered handlers, on handles that fail or not, any
two persisted books have different identifiers and every persisted book has a
non-empty title, a non-empty author and a non-negative progress. -/
theorem persisted_books_invariant (n : Nat) (reqs : List handlers.Exchange) :
    (handlers.serve { books := [], lastID := n } reqs).books.Pairwise (fun a b => a.ID ≠ b.ID) ∧
    ∀ b ∈ (handlers.serve { books := [], lastID := n } reqs).books,
      b.Title ≠ "" ∧ b.Author ≠ "" ∧ 0 ≤ b.Progress := by
  have h := consistent_serve reqs { books := [], lastID := n } (consistent_empty n)
  exact ⟨h.1, h.2.2⟩

/-! ## Opening the database: the retry loop and the table -/

theorem connectError_of_error (w : db.World) (i : Nat) (e : String)
    (h : w.connect i = Except.error e) : db.connectError w i = e := by
  simp [db.connectError, h]

/-- The loop over iterations whose calls of `sqlx.Connect` all fail. -/
theorem retryLoop_all_fail (w : db.World) (n i : Nat) (st : db.LoopState)
    (hfail : ∀ j, i ≤ j → j < i + n → ∃ e, w.connect j = Except.error e) :
    db.retryLoop w n i st =
      { db := if n = 0 then st.db else none,
        err := if n = 0 then st.err else some (db.connectError w (i + n - 1)),
        trace := st.trace ++ (List.range' i n).flatMap fun j =>
          db.Event.connect :: db.afterFailure j (db.connectError w j) } := by
  induction n generalizing i st with
  | zero => simp [db.retryLoop]
  | succ n ih =>
    obtain ⟨e, he⟩ := hfail i (Nat.le_refl i) (by omega)
    have hrest : ∀ j, i + 1 ≤ j → j < i + 1 + n → ∃ e, w.connect j = Except.error e :=
      fun j h1 h2 => hfail j (by omega) (by omega)
    simp only [db.retryLoop, he, ih (i + 1) _ hrest, List.range'_succ, List.flatMap_cons,
      connectError_of_error w i e he, List.append_assoc]
    cases n with
    | zero => simp [connectError_of_error w i e he]
    | succ m =>
      have hidx : i + 1 + (m + 1) - 1 = i + (m + 1 + 1) - 1 := by omega
      simp [hidx]

/-- The loop up to the first call of `sqlx.Connect` that succeeds. -/
theorem retryLoop_first_success (w : db.World) (n i k : Nat) (st : db.LoopState)
    (handle : sqlx.DB) (hik : i ≤ k) (hkn : k < i + n)
    (hfail : ∀ j, i ≤ j → j < k → ∃ e, w.connect j = Except.error e)
    (hok : w.connect k = Except.ok handle) :
    db.retryLoop w n i st =
      { db := some handle, err := none,
        trace := st.trace ++ ((List.range' i (k - i)).flatMap fun j =>
          db.Event.connect :: db.afterFailure j (db.connectError w j)) ++ [db.Event.connect] } := by
  induction n generalizing i st with
  | zero => omega
  | succ n ih =>
    by_cases heq : i = k
    · subst heq
      simp [db.retryLoop, hok]
    · obtain ⟨e, he⟩ := hfail i (Nat.le_refl i) (by omega)
      have hrest : ∀ j, i + 1 ≤ j → j < k → ∃ e, w.connect j = Except.error e :=
        fun j h1 h2 => hfail j (by omega) h2
      have hlen : k - i = (k - (i + 1)) + 1 := by omega
      simp only [db.retryLoop, he, ih (i + 1) _ (by omega) (by omega) hrest, hlen,
        List.range'_succ, List.flatMap_cons, connectError_of_error w i e he, List.append_assoc,
        List.cons_append]

theorem first_success_or_all_fail (w : db.World) (n : Nat) :
    (∀ j, j < n → ∃ e, w.connect j = Except.error e) ∨
    ∃ k handle, k < n ∧ (∀ j, j < k → ∃ e, w.connect j = Except.error e) ∧
      w.connect k = Except.ok handle := by
  induction n with
  | zero => exact Or.inl (fun j hj => absurd hj (Nat.not_lt_zero j))
  | succ n ih =>
    rcases ih with hall | ⟨k, handle, hk, hfail, hok⟩
    · cases hn : w.connect n with
      | error e =>
        left
        intro j hj
        by_cases hjn : j = n
        · exact ⟨e, by rw [hjn]; exact hn⟩
        · exact hall j (by omega)
      | ok handle => exact Or.inr ⟨n, handle, Nat.lt_succ_self n, hall, hn⟩
    · exact Or.inr ⟨k, handle, by omega, hfail, hok⟩

/-- One failed iteration of the retry loop, event by event: the call, the
message with the number of the attempt and the error, the sleep of 2 seconds. -/
theorem failed_iteration_events (j : Nat) (e : String) :
    db.Event.connect :: db.afterFailure j e =
      [db.Event.connect,
        db.Event.printf ("Failed to connect to database (attempt " ++ toString (j + 1)
          ++ "/10): " ++ e ++ "\n"),
        db.Event.sleep 2000000000] := by
  have htext : "Failed to connect to database (attempt " ++ toString (j + 1) ++ "/"
      ++ toString db.maxRetries ++ "): " ++ e ++ "\n"
      = "Failed to connect to database (attempt " ++ toString (j + 1) ++ "/10): " ++ e ++ "\n" := by
    have h10 : toString db.maxRetries = "10" := rfl
    have hcat : "/" ++ ("10" ++ "): ") = "/10): " := rfl
    rw [h10, String.append_assoc _ "/" "10", String.append_assoc _ ("/" ++ "10") "): ",
      String.append_assoc "/" "10" "): ", hcat]
  have hsleep : db.retryInterval = 2000000000 := rfl
  simp only [db.afterFailure, htext, hsleep]

theorem count_connect_rounds (w : db.World) (i n : Nat) :
    ((List.range' i n).flatMap fun j =>
      [db.Event.connect,
        db.Event.printf ("Failed to connect to database (attempt " ++ toString (j + 1)
          ++ "/10): " ++ db.connectError w j ++ "\n"),
        db.Event.sleep 2000000000]).count db.Event.connect = n := by
  induction n generalizing i with
  | zero => simp
  | succ n ih =>
    simp only [List.range'_succ, List.flatMap_cons, List.count_append, ih (i + 1)]
    simp [List.count_cons]
    omega

theorem count_sleep_rounds (w : db.World) (i n : Nat) :
    ((List.range' i n).flatMap fun j =>
      [db.Event.connect,
        db.Event.printf ("Failed to connect to database (attempt " ++ toString (j + 1)
          ++ "/10): " ++ db.connectError w j ++ "\n"),
        db.Event.sleep 2000000000]).count (db.Event.sleep 2000000000) = n := by
  induction n generalizing i with
  | zero => simp
  | succ n ih =>
    simp only [List.range'_succ, List.flatMap_cons, List.count_append, ih (i + 1)]
    simp [List.count_cons]
    omega

theorem sleep_in_rounds (w : db.World) (k d : Nat)
    (h : db.Event.sleep d ∈ ((List.range k).flatMap fun j =>
      [db.Event.connect,
        db.Event.printf ("Failed to connect to database (attempt " ++ toString (j + 1)
          ++ "/10): " ++ db.connectError w j ++ "\n"),
        db.Event.sleep 2000000000])) : d = 2000000000 := by
  simp only [List.mem_flatMap] at h
  obtain ⟨j, _, hj⟩ := h
  simpa using hj

theorem exec_not_in_rounds (w : db.World) (k : Nat) :
    db.Event.exec ∉ ((List.range k).flatMap fun j =>
      [db.Event.connect,
        db.Event.printf ("Failed to connect to database (attempt " ++ toString (j + 1)
          ++ "/10): " ++ db.connectError w j ++ "\n"),
        db.Event.sleep 2000000000]) := by
  simp [List.mem_flatMap]

theorem connect_failure_text (e : String) :
    "failed to connect to database after " ++ toString db.maxRetries ++ " attempts: " ++ e
      = "failed to connect to database after 10 attempts: " ++ e := rfl

theorem connect_failure_ne_table_failure (e f : String) :
    "failed to connect to database after 10 attempts: " ++ e
      ≠ "failed to create books table: " ++ f := by
  intro h
  have h2 := congrArg String.data h
  simp at h2

/-- A run of `NewDB` whose first successful connection is the call number `k`. -/
theorem NewDB_first_success (w : db.World) (server : Option Database) (k : Nat)
    (handle : sqlx.DB) (hk : k < 10)
    (hfail : ∀ j, j < k → ∃ e, w.connect j = Except.error e)
    (hok : w.connect k = Except.ok handle) :
    db.NewDB w server =
      match handle.fault with
      | none =>
        { outcome := db.Outcome.handle handle,
          server := some (server.getD { books := [], lastID := 0 }),
          trace := ((List.range k).flatMap fun j =>
            [db.Event.connect,
              db.Event.printf ("Failed to connect to database (attempt " ++ toString (j + 1)
                ++ "/10): " ++ db.connectError w j ++ "\n"),
              db.Event.sleep 2000000000]) ++ [db.Event.connect, db.Event.exec] }
      | some e =>
        { outcome := db.Outcome.error ("failed to create books table: " ++ e),
          server := server,
          trace := ((List.range k).flatMap fun j =>
            [db.Event.connect,
              db.Event.printf ("Failed to connect to database (attempt " ++ toString (j + 1)
                ++ "/10): " ++ db.connectError w j ++ "\n"),
              db.Event.sleep 2000000000]) ++ [db.Event.connect, db.Event.exec, db.Event.close] } := by
  have hloop := retryLoop_first_success w db.maxRetries 0 k
    { db := none, err := none, trace := [] } handle (Nat.zero_le k)
    (by simp only [db.maxRetries]; omega) (fun j _ hj => hfail j hj) hok
  simp only [failed_iteration_events] at hloop
  cases hf : handle.fault with
  | none =>
    simp [db.NewDB, hloop, sqlx.createTableIfNotExists, hf, List.range_eq_range']
  | some e =>
    simp [db.NewDB, hloop, sqlx.createTableIfNotExists, hf, List.range_eq_range']

/-- A run of `NewDB` in which every call of `sqlx.Connect` fails. -/
theorem NewDB_all_fail (w : db.World) (server : Option Database)
    (hfail : ∀ j, j < 10 → ∃ e, w.connect j = Except.error e) :
    db.NewDB w server =
      { outcome := db.Outcome.error
          ("failed to connect to database after 10 attempts: " ++ db.connectError w 9),
        server := server,
        trace := ((List.range 10).flatMap fun j =>
            [db.Event.connect,
              db.Event.printf ("Failed to connect to database (attempt " ++ toString (j + 1)
                ++ "/10): " ++ db.connectError w j ++ "\n"),
              db.Event.sleep 2000000000]) } := by
  have hloop := retryLoop_all_fail w db.maxRetries 0 { db := none, err := none, trace := [] }
    (fun j _ hj => hfail j (by simpa [db.maxRetries] using hj))
  simp only [failed_iteration_events] at hloop
  simp only [db.NewDB, hloop, List.range_eq_range']
  simp [db.maxRetries]
  exact connect_failure_text _

/-- C11: `NewDB` calls `sqlx.Connect` time after time; every call that fails is
followed by the message and by a sleep of 2 seconds (2000000000 nanoseconds)
before anything else happens, and the calls stop at the first that succeeds or
after the tenth.  The events are given one by one: when the call number `k` is
the first to succeed there are `k` rounds of call, message and sleep, hence `k`
sleeps, then the call that succeeds, then the create-table-if-absent statement
run through the handle; the handle is returned when the statement succeeds (the
table then exists, with its contents if it had any), and otherwise the handle
is closed and the error of the statement is returned.  When all 10 calls fail
there are 10 such rounds, 10 sleeps and no statement, and the connection-failure
error is returned; it is returned in that case only.  Whatever the calls
return, there are at most 10 of them, every sleep lasts 2 seconds, the statement
runs only after a call that succeeded, and `NewDB` returns. -/
theorem NewDB_retries_then_ensures_table (w : db.World) (server : Option Database) :
    (∀ k handle, k < 10 → (∀ j, j < k → ∃ e, w.connect j = Except.error e) →
      w.connect k = Except.ok handle →
      (db.NewDB w server).trace.count (db.Event.sleep 2000000000) = k ∧
      (db.NewDB w server).trace.count db.Event.connect = k + 1 ∧
      (handle.fault = none →
        (db.NewDB w server).trace
          = ((List.range k).flatMap fun j =>
            [db.Event.connect,
              db.Event.printf ("Failed to connect to database (attempt " ++ toString (j + 1)
                ++ "/10): " ++ db.connectError w j ++ "\n"),
              db.Event.sleep 2000000000]) ++ [db.Event.connect, db.Event.exec] ∧
        (db.NewDB w server).outcome = db.Outcome.handle handle ∧
        (db.NewDB w server).server = some (server.getD { books := [], lastID := 0 })) ∧
      (∀ e, handle.fault = some e →
        (db.NewDB w server).trace
          = ((List.range k).flatMap fun j =>
            [db.Event.connect,
              db.Event.printf ("Failed to connect to database (attempt " ++ toString (j + 1)
                ++ "/10): " ++ db.connectError w j ++ "\n"),
              db.Event.sleep 2000000000]) ++ [db.Event.connect, db.Event.exec, db.Event.close] ∧
        (db.NewDB w server).outcome = db.Outcome.error ("failed to create books table: " ++ e) ∧
        (db.NewDB w server).server = server)) ∧
    ((∀ j, j < 10 → ∃ e, w.connect j = Except.error e) →
      (db.NewDB w server).trace = ((List.range 10).flatMap fun j =>
            [db.Event.connect,
              db.Event.printf ("Failed to connect to database (attempt " ++ toString (j + 1)
                ++ "/10): " ++ db.connectError w j ++ "\n"),
              db.Event.sleep 2000000000]) ∧
      (db.NewDB w server).trace.count (db.Event.sleep 2000000000) = 10 ∧
      (db.NewDB w server).trace.count db.Event.connect = 10 ∧
      (db.NewDB w server).outcome = db.Outcome.error
        ("failed to connect to database after 10 attempts: " ++ db.connectError w 9) ∧
      (db.NewDB w server).server = server) ∧
    ((∃ e, (db.NewDB w server).outcome
        = db.Outcome.error ("failed to connect to database after 10 attempts: " ++ e)) ↔
      ∀ j, j < 10 → ∃ e, w.connect j = Except.error e) ∧
    (db.NewDB w server).trace.count db.Event.connect ≤ 10 ∧
    (∀ d, db.Event.sleep d ∈ (db.NewDB w server).trace → d = 2000000000) ∧
    (db.Event.exec ∈ (db.NewDB w server).trace →
      ∃ k handle, k < 10 ∧ w.connect k = Except.ok handle ∧
        (db.NewDB w server).trace.count db.Event.connect = k + 1) ∧
    (db.NewDB w server).outcome ≠ db.Outcome.nilDereference := by
  have hA : ∀ k handle, k < 10 → (∀ j, j < k → ∃ e, w.connect j = Except.error e) →
      w.connect k = Except.ok handle →
      (db.NewDB w server).trace.count (db.Event.sleep 2000000000) = k ∧
      (db.NewDB w server).trace.count db.Event.connect = k + 1 ∧
      (handle.fault = none →
        (db.NewDB w server).trace
          = ((List.range k).flatMap fun j =>
            [db.Event.connect,
              db.Event.printf ("Failed to connect to database (attempt " ++ toString (j + 1)
                ++ "/10): " ++ db.connectError w j ++ "\n"),
              db.Event.sleep 2000000000]) ++ [db.Event.connect, db.Event.exec] ∧
        (db.NewDB w server).outcome = db.Outcome.handle handle ∧
        (db.NewDB w server).server = some (server.getD { books := [], lastID := 0 })) ∧
      (∀ e, handle.fault = some e →
        (db.NewDB w server).trace
          = ((List.range k).flatMap fun j =>
            [db.Event.connect,
              db.Event.printf ("Failed to connect to database (attempt " ++ toString (j + 1)
                ++ "/10): " ++ db.connectError w j ++ "\n"),
              db.Event.sleep 2000000000]) ++ [db.Event.connect, db.Event.exec, db.Event.close] ∧
        (db.NewDB w server).outcome = db.Outcome.error ("failed to create books table: " ++ e) ∧
        (db.NewDB w server).server = server) := by
    intro k handle hk hfail hok
    have hrun := NewDB_first_success w server k handle hk hfail hok
    have hcs := count_sleep_rounds w 0 k
    have hcc := count_connect_rounds w 0 k
    rw [← List.range_eq_range'] at hcs hcc
    rcases fault_cases handle with hf | ⟨f, hf⟩
    · rw [hf] at hrun
      rw [hrun]
      refine ⟨?_, ?_, fun _ => ⟨rfl, rfl, rfl⟩, ?_⟩
      · simp only [List.count_append, hcs]
        simp [List.count_cons]
      · simp only [List.count_append, hcc]
        simp [List.count_cons]
      · intro e he
        rw [hf] at he
        simp at he
    · rw [hf] at hrun
      rw [hrun]
      refine ⟨?_, ?_, ?_, ?_⟩
      · simp only [List.count_append, hcs]
        simp [List.count_cons]
      · simp only [List.count_append, hcc]
        simp [List.count_cons]
      · intro hnone
        rw [hf] at hnone
        simp at hnone
      · intro e he
        rw [hf] at he
        cases he
        exact ⟨rfl, rfl, rfl⟩
  have hB : (∀ j, j < 10 → ∃ e, w.connect j = Except.error e) →
      (db.NewDB w server).trace = ((List.range 10).flatMap fun j =>
            [db.Event.connect,
              db.Event.printf ("Failed to connect to database (attempt " ++ toString (j + 1)
                ++ "/10): " ++ db.connectError w j ++ "\n"),
              db.Event.sleep 2000000000]) ∧
      (db.NewDB w server).trace.count (db.Event.sleep 2000000000) = 10 ∧
      (db.NewDB w server).trace.count db.Event.connect = 10 ∧
      (db.NewDB w server).outcome = db.Outcome.error
        ("failed to connect to database after 10 attempts: " ++ db.connectError w 9) ∧
      (db.NewDB w server).server = server := by
    intro hfail
    have hcs := count_sleep_rounds w 0 10
    have hcc := count_connect_rounds w 0 10
    rw [← List.range_eq_range'] at hcs hcc
    rw [NewDB_all_fail w server hfail]
    exact ⟨rfl, hcs, hcc, rfl, rfl⟩
  refine ⟨hA, hB, ?_, ?_, ?_, ?_, ?_⟩
  · constructor
    · rintro ⟨e, he⟩
      rcases first_success_or_all_fail w 10 with hall | ⟨k, handle, hk, hfail, hok⟩
      · exact hall
      · exfalso
        rcases fault_cases handle with hf | ⟨f, hf⟩
        · rw [((hA k handle hk hfail hok).2.2.1 hf).2.1] at he
          simp at he
        · rw [((hA k handle hk hfail hok).2.2.2 f hf).2.1] at he
          simp only [db.Outcome.error.injEq] at he
          exact connect_failure_ne_table_failure e f he.symm
    · intro hall
      exact ⟨_, (hB hall).2.2.2.1⟩
  · rcases first_success_or_all_fail w 10 with hall | ⟨k, handle, hk, hfail, hok⟩
    · rw [(hB hall).2.2.1]
    · rw [(hA k handle hk hfail hok).2.1]
      omega
  · intro d hd
    rcases first_success_or_all_fail w 10 with hall | ⟨k, handle, hk, hfail, hok⟩
    · rw [(hB hall).1] at hd
      exact sleep_in_rounds w 10 d hd
    · rcases fault_cases handle with hf | ⟨f, hf⟩
      · rw [((hA k handle hk hfail hok).2.2.1 hf).1] at hd
        rcases List.mem_append.mp hd with h | h
        · exact sleep_in_rounds w k d h
        · simp at h
      · rw [((hA k handle hk hfail hok).2.2.2 f hf).1] at hd
        rcases List.mem_append.mp hd with h | h
        · exact sleep_in_rounds w k d h
        · simp at h
  · intro hexec
    rcases first_success_or_all_fail w 10 with hall | ⟨k, handle, hk, hfail, hok⟩
    · rw [(hB hall).1] at hexec
      exact absurd hexec (exec_not_in_rounds w 10)
    · exact ⟨k, handle, hk, hok, (hA k handle hk hfail hok).2.1⟩
  · rcases first_success_or_all_fail w 10 with hall | ⟨k, handle, hk, hfail, hok⟩
    · rw [(hB hall).2.2.2.1]
      simp
    · rcases fault_cases handle with hf | ⟨f, hf⟩
      · rw [((hA k handle hk hfail hok).2.2.1 hf).2.1]
        simp
      · rw [((hA k handle hk hfail hok).2.2.2 f hf).2.1]
        simp

theorem NewDB_retries_then_ensures_table_witness :
    ((2 < 10) ∧
      (∀ j, j < 2 → ∃ e, (db.connectsAfter 2 "refused" healthy).connect j = Except.error e) ∧
      (db.connectsAfter 2 "refused" healthy).connect 2 = Except.ok healthy ∧
      healthy.fault = none ∧
      (∀ j, j < 10 → ∃ e, (db.connectsAfter 10 "refused" healthy).connect j = Except.error e)) ∧
    ((db.NewDB (db.connectsAfter 2 "refused" healthy) none).trace.count
        (db.Event.sleep 2000000000) = 2 ∧
      (db.NewDB (db.connectsAfter 2 "refused" healthy) none).trace.count db.Event.connect
        = 2 + 1) ∧
    (db.NewDB (db.connectsAfter 2 "refused" healthy) none).trace
      = [db.Event.connect,
          db.Event.printf "Failed to connect to database (attempt 1/10): refused\n",
          db.Event.sleep 2000000000,
          db.Event.connect,
          db.Event.printf "Failed to connect to database (attempt 2/10): refused\n",
          db.Event.sleep 2000000000,
          db.Event.connect, db.Event.exec] ∧
    (db.NewDB (db.connectsAfter 2 "refused" healthy) none).outcome = db.Outcome.handle healthy ∧
    ((db.NewDB (db.connectsAfter 10 "refused" healthy) none).trace.count
        (db.Event.sleep 2000000000) = 10 ∧
      (db.NewDB (db.connectsAfter 10 "refused" healthy) none).trace.count db.Event.connect = 10 ∧
      (db.NewDB (db.connectsAfter 10 "refused" healthy) none).outcome = db.Outcome.error
        ("failed to connect to database after 10 attempts: "
          ++ db.connectError (db.connectsAfter 10 "refused" healthy) 9)) :=
  ⟨⟨by decide, fun j hj => ⟨"refused", by simp [db.connectsAfter, hj]⟩, rfl, rfl,
      fun j hj => ⟨"refused", by simp [db.connectsAfter, hj]⟩⟩,
    ⟨((NewDB_retries_then_ensures_table (db.connectsAfter 2 "refused" healthy) none).1
        2 healthy (by decide) (fun j hj => ⟨"refused", by simp [db.connectsAfter, hj]⟩) rfl).1,
      ((NewDB_retries_then_ensures_table (db.connectsAfter 2 "refused" healthy) none).1
        2 healthy (by decide) (fun j hj => ⟨"refused", by simp [db.connectsAfter, hj]⟩) rfl).2.1⟩,
    rfl, rfl,
    ((NewDB_retries_then_ensures_table (db.connectsAfter 10 "refused" healthy) none).2.1
      (fun j hj => ⟨"refused", by simp [db.connectsAfter, hj]⟩)).2.1,
    ((NewDB_retries_then_ensures_table (db.connectsAfter 10 "refused" healthy) none).2.1
      (fun j hj => ⟨"refused", by simp [db.connectsAfter, hj]⟩)).2.2.1,
    ((NewDB_retries_then_ensures_table (db.connectsAfter 10 "refused" healthy) none).2.1
      (fun j hj => ⟨"refused", by simp [db.connectsAfter, hj]⟩)).2.2.2.1⟩

/-! ## Updating and deleting an identifier that no row carries -/

theorem map_replace_absent (l : List Book) (book : Book) (id : Int)
    (habsent : ∀ row ∈ l, row.ID ≠ id) :
    (l.map fun row => if row.ID = id then { book with ID := row.ID } else row) = l := by
  induction l with
  | nil => rfl
  | cons row rest ih =>
    have hrow : row.ID ≠ id := habsent row (List.mem_cons_self _ _)
    have hrest : ∀ x ∈ rest, x.ID ≠ id := fun x hx => habsent x (List.mem_cons_of_mem _ hx)
    simp only [List.map_cons, if_neg hrow, ih hrest]

theorem filter_remove_absent (l : List Book) (id : Int) (habsent : ∀ row ∈ l, row.ID ≠ id) :
    (l.filter fun row => decide (row.ID ≠ id)) = l := by
  apply List.filter_eq_self.mpr
  intro row hrow
  simpa using habsent row hrow

/-- C12: for an identifier that no row of the store carries, on a store that
executes the statement, an update with a valid body answers 200 with the
submitted book under the identifier of the route, and a delete, whatever its
body or lack of one, answers 204 with an empty body; neither answers 404 and
both leave the store as it was.  For any identifier, present or not, a second
delete right after a first answers 204 like the first and leaves the store the
first delete left. -/
theorem absent_id_update_and_delete_are_successful_noops (db1 db2 : sqlx.DB) (d : Database)
    (r : handlers.Request) (id : Int) (hid : strconv.Atoi r.id = some id) :
    (∀ book, r.body = some book → book.Title ≠ "" → book.Author ≠ "" → 0 ≤ book.Progress →
      (∀ row ∈ d.books, row.ID ≠ id) →
      ((NewBookRepository db1).UpdateBook d { book with ID := id }).2.2 = none →
      (handlers.UpdateBook (NewBookRepository db1) d http.NewRecorder r).2.Code = 200 ∧
      (handlers.UpdateBook (NewBookRepository db1) d http.NewRecorder r).2.Code ≠ 404 ∧
      (handlers.UpdateBook (NewBookRepository db1) d http.NewRecorder r).2.body
        = [http.Payload.json (json.marshalBook { book with ID := id })] ∧
      (handlers.UpdateBook (NewBookRepository db1) d http.NewRecorder r).1 = d) ∧
    ((∀ row ∈ d.books, row.ID ≠ id) →
      ((NewBookRepository db1).DeleteBook d id).2 = none →
      (handlers.DeleteBook (NewBookRepository db1) d http.NewRecorder r).2.Code = 204 ∧
      (handlers.DeleteBook (NewBookRepository db1) d http.NewRecorder r).2.Code ≠ 404 ∧
      (handlers.DeleteBook (NewBookRepository db1) d http.NewRecorder r).2.body = [] ∧
      (handlers.DeleteBook (NewBookRepository db1) d http.NewRecorder r).1 = d) ∧
    (((NewBookRepository db1).DeleteBook d id).2 = none →
      ((NewBookRepository db2).DeleteBook
        (handlers.DeleteBook (NewBookRepository db1) d http.NewRecorder r).1 id).2 = none →
      (handlers.DeleteBook (NewBookRepository db1) d http.NewRecorder r).2.Code = 204 ∧
      (handlers.DeleteBook (NewBookRepository db2)
        (handlers.DeleteBook (NewBookRepository db1) d http.NewRecorder r).1
        http.NewRecorder r).2.Code = 204 ∧
      (handlers.DeleteBook (NewBookRepository db2)
        (handlers.DeleteBook (NewBookRepository db1) d http.NewRecorder r).1
        http.NewRecorder r).1
        = (handlers.DeleteBook (NewBookRepository db1) d http.NewRecorder r).1) := by
  have h204 : (http.NewRecorder.WriteHeader http.StatusNoContent).Code = 204 := by
    rw [header_only_code]; rfl
  have h200 : ∀ v, (json.Encode http.NewRecorder v).Code = 200 := by
    intro v; rw [encode_code]; rfl
  have hdel : ((NewBookRepository db1).DeleteBook d id).2 = none →
      handlers.DeleteBook (NewBookRepository db1) d http.NewRecorder r =
        ({ d with books := d.books.filter fun row => decide (row.ID ≠ id) },
          http.NewRecorder.WriteHeader http.StatusNoContent) := by
    intro hdelete
    have hfd := repo_delete_succeeds db1 d id hdelete
    simp only [handlers.DeleteBook, hid, repo_delete_ok db1 d id hfd]
  refine ⟨?_, ?_, ?_⟩
  · intro book hbody htitle hauthor hprogress habsent hupdate
    have hfu := repo_update_succeeds db1 d _ hupdate
    have hv : ¬ (book.Title = "" ∨ book.Author = "" ∨ book.Progress < 0) := by
      simp [htitle, hauthor, not_lt.mpr hprogress]
    have hupd : handlers.UpdateBook (NewBookRepository db1) d http.NewRecorder r =
        ({ d with books := d.books.map fun row =>
              if row.ID = id then { book with ID := row.ID } else row },
          json.Encode http.NewRecorder (json.marshalBook { book with ID := id })) := by
      simp only [handlers.UpdateBook, hid, hbody, if_neg hv, repo_update_ok db1 d _ hfu]
    rw [hupd]
    refine ⟨h200 _, ?_, encode_body _, ?_⟩
    · simp only [h200]; decide
    · simp only [map_replace_absent d.books book id habsent]
  · intro habsent hdelete
    rw [hdel hdelete]
    refine ⟨h204, ?_, header_only_body _, ?_⟩
    · simp only [h204]; decide
    · simp only [filter_remove_absent d.books id habsent]
  · intro hdelete hagain
    rw [hdel hdelete] at hagain ⊢
    have hfa := repo_delete_succeeds db2 _ id hagain
    have hdel2 : handlers.DeleteBook (NewBookRepository db2)
        { d with books := d.books.filter fun row => decide (row.ID ≠ id) } http.NewRecorder r =
        ({ d with books := d.books.filter fun row => decide (row.ID ≠ id) },
          http.NewRecorder.WriteHeader http.StatusNoContent) := by
      simp only [handlers.DeleteBook, hid, repo_delete_ok db2 _ id hfa, List.filter_filter,
        Bool.and_self]
    rw [hdel2]
    exact ⟨h204, h204, rfl⟩

theorem absent_id_update_and_delete_are_successful_noops_witness :
    (strconv.Atoi "9" = some 9 ∧ emmaBook.Title ≠ "" ∧ emmaBook.Author ≠ "" ∧
      0 ≤ emmaBook.Progress ∧
      ∀ row ∈ ({ books := [{ duneBook with ID := 2 }], lastID := 7 } : Database).books,
        row.ID ≠ 9) ∧
    (handlers.UpdateBook (NewBookRepository healthy)
      { books := [{ duneBook with ID := 2 }], lastID := 7 }
      http.NewRecorder { id := "9", body := some emmaBook }).2.Code = 200 ∧
    (handlers.UpdateBook (NewBookRepository healthy)
      { books := [{ duneBook with ID := 2 }], lastID := 7 }
      http.NewRecorder { id := "9", body := some emmaBook }).1
        = { books := [{ duneBook with ID := 2 }], lastID := 7 } ∧
    (handlers.DeleteBook (NewBookRepository healthy)
      { books := [{ duneBook with ID := 2 }], lastID := 7 }
      http.NewRecorder { id := "9", body := none }).2.Code = 204 ∧
    (handlers.DeleteBook (NewBookRepository healthy)
      { books := [{ duneBook with ID := 2 }], lastID := 7 }
      http.NewRecorder { id := "9", body := none }).1
        = { books := [{ duneBook with ID := 2 }], lastID := 7 } ∧
    (handlers.DeleteBook (NewBookRepository healthy)
      (handlers.DeleteBook (NewBookRepository healthy)
        { books := [{ duneBook with ID := 2 }], lastID := 7 }
        http.NewRecorder { id := "2", body := none }).1
      http.NewRecorder { id := "2", body := none }).2.Code = 204 :=
  ⟨⟨by decide, by decide, by decide, by decide, by decide⟩,
    ((absent_id_update_and_delete_are_successful_noops healthy healthy
      { books := [{ duneBook with ID := 2 }], lastID := 7 }
      { id := "9", body := some emmaBook } 9 (by decide)).1
      emmaBook rfl (by decide) (by decide) (by decide) (by decide) rfl).1,
    ((absent_id_update_and_delete_are_successful_noops healthy healthy
      { books := [{ duneBook with ID := 2 }], lastID := 7 }
      { id := "9", body := some emmaBook } 9 (by decide)).1
      emmaBook rfl (by decide) (by decide) (by decide) (by decide) rfl).2.2.2,
    ((absent_id_update_and_delete_are_successful_noops healthy healthy
      { books := [{ duneBook with ID := 2 }], lastID := 7 }
      { id := "9", body := none } 9 (by decide)).2.1 (by decide) rfl).1,
    ((absent_id_update_and_delete_are_successful_noops healthy healthy
      { books := [{ duneBook with ID := 2 }], lastID := 7 }
      { id := "9", body := none } 9 (by decide)).2.1 (by decide) rfl).2.2.2,
    ((absent_id_update_and_delete_are_successful_noops healthy healthy
      { books := [{ duneBook with ID := 2 }], lastID := 7 }
      { id := "2", body := none } 2 (by decide)).2.2 rfl rfl).2.1⟩
